import Mathlib

/-!
Verification development for the mne-bank-parser statement-extraction engine.

The definitions below are a shallow embedding of the Python source:
`app/parsers/base.py` (locale normalizers, canonical data model),
`app/parsers/__init__.py` (registry / orchestrator), and the transaction
passes of `app/parsers/ziraat.py`, `app/parsers/zapad.py`,
`app/parsers/ucb.py` and the glyph decoder of `app/parsers/nlb.py`.

Python strings are modelled as `List Char` / `String`, `decimal.Decimal`
values as exact rationals (plus the special values the constructor can
produce), `datetime.date` as a validated triple, and each regular
expression used by the embedded functions as a hand-compiled matcher with
the same leftmost / greedy / lazy backtracking behaviour.
-/

namespace BankParser

/-! ## Python string primitives -/

/-- Python whitespace (the `str.strip()` default set, the regex `\s` class),
ASCII part; all inputs in this development are ASCII or Latin letters. -/
def pyIsWs (c : Char) : Bool :=
  c == ' ' || c == '\t' || c == '\n' || c == '\x0d' || c == '\x0b' || c == '\x0c'

/-- Python `str.lstrip()` on a character list. -/
def pyLstrip (l : List Char) : List Char := l.dropWhile pyIsWs

/-- Python `str.rstrip()` on a character list. -/
def pyRstrip (l : List Char) : List Char := (l.reverse.dropWhile pyIsWs).reverse

/-- Python `str.strip()` on a character list. -/
def pyStrip (l : List Char) : List Char := pyRstrip (pyLstrip l)

/-- Python `str.rstrip(".")` on a character list. -/
def pyRstripDot (l : List Char) : List Char := (l.reverse.dropWhile (· == '.')).reverse

/-- Python `str.strip()` producing a `String`. -/
def pyStripS (s : String) : String := ⟨pyStrip s.data⟩

/-- Python `str.replace(c, "")` for a one-character needle. -/
def pyDropChar (c : Char) (l : List Char) : List Char := l.filter (· ≠ c)

/-- Python `str.replace(c, r)` for one-character needle and replacement. -/
def pyMapChar (c r : Char) (l : List Char) : List Char :=
  l.map (fun x => if x = c then r else x)

/-- Python `str.isdigit()` restricted to ASCII digits (all call sites feed
ASCII text). -/
def pyIsdigit (l : List Char) : Bool := !l.isEmpty && l.all (·.isDigit)

/-- Value of one ASCII digit. -/
def digitVal (c : Char) : Nat := c.toNat - '0'.toNat

/-- Python `int()` of a digit string (all-digits at every call site). -/
def digitsToNat (l : List Char) : Nat := l.foldl (fun a c => a * 10 + digitVal c) 0

/-- Python `str.split("\n")`: split at every newline, keeping empty pieces. -/
def splitNl (l : List Char) : List (List Char) :=
  match l with
  | [] => [[]]
  | c :: rest =>
    let r := splitNl rest
    if c = '\n' then [] :: r
    else
      match r with
      | [] => [[c]]
      | h :: t => (c :: h) :: t

/-- Helper for `splitWs`: accumulates the current word (reversed). -/
def splitWsAux : List Char → List Char → List (List Char)
  | [], acc => if acc.isEmpty then [] else [acc.reverse]
  | c :: rest, acc =>
    if pyIsWs c then
      if acc.isEmpty then splitWsAux rest []
      else acc.reverse :: splitWsAux rest []
    else splitWsAux rest (c :: acc)

/-- Python `str.split()` with no argument: whitespace runs separate words,
no empty pieces are produced. -/
def splitWs (l : List Char) : List (List Char) := splitWsAux l []

/-- Python `sep.join(parts)` on character lists. -/
def joinSep (sep : List Char) : List (List Char) → List Char
  | [] => []
  | [p] => p
  | p :: ps => p ++ sep ++ joinSep sep ps

/-- Python `haystack.startswith(pre)`. -/
def pyStartsWith (pre l : List Char) : Bool := pre.isPrefixOf l

/-- Python substring containment (`needle in haystack`). -/
def pyContains : List Char → List Char → Bool
  | n, [] => n.isEmpty
  | n, h :: t => pyStartsWith n (h :: t) || pyContains n t

/-! ## `decimal.Decimal` construction from a string

`Decimal(text)` strips leading/trailing whitespace, removes underscores, and
then parses the decimal-arithmetic numeric-string grammar (case-insensitive):
`sign? (digits [. digits?] | . digits) [E sign? digits]`, or `Inf`/`Infinity`,
or `[s]NaN digits?`.  Anything else raises (modelled as `none`). -/

inductive PyDec where
  | num (coeff : Int) (exp : Int)
  | inf (neg : Bool)
  | nan
  | snan
deriving DecidableEq, Repr

/-- Lower-case an ASCII letter (for the case-insensitive keywords). -/
def asciiLower (c : Char) : Char :=
  if 'A' ≤ c ∧ c ≤ 'Z' then Char.ofNat (c.toNat + 32) else c

/-- Optional sign; returns `true` for a minus sign. -/
def parseSign (l : List Char) : Bool × List Char :=
  match l with
  | c :: rest =>
    if c = '+' then (false, rest)
    else if c = '-' then (true, rest)
    else (false, c :: rest)
  | [] => (false, [])

/-- Exponent clause `E sign? digits` (case-insensitive); `none` if absent or
malformed (a malformed exponent makes the whole numeral fail because the
grammar requires the full input to be consumed). -/
def parseExponent : List Char → Option (Int × List Char)
  | c :: rest =>
    if asciiLower c = 'e' then
      let (neg, r1) := parseSign rest
      let ds := r1.takeWhile (·.isDigit)
      if ds.isEmpty then none
      else some ((if neg then -(digitsToNat ds : Int) else (digitsToNat ds : Int)),
                 r1.drop ds.length)
    else none
  | [] => none

/-- The numeric-string grammar after sign removal, for the finite case:
`digits [. digits?] | . digits`, leaving any remaining input for the
exponent clause.  A decimal keeps its coefficient and exponent (the value
is `coeff * 10 ^ exp`), exactly as `decimal.Decimal` stores them. -/
def parseCoefficient (l : List Char) : Option ((Nat × Int) × List Char) :=
  let intDigits := l.takeWhile (·.isDigit)
  let r1 := l.drop intDigits.length
  match r1 with
  | c :: r2 =>
    if c = '.' then
      let fracDigits := r2.takeWhile (·.isDigit)
      if intDigits.isEmpty ∧ fracDigits.isEmpty then none
      else
        some ((digitsToNat (intDigits ++ fracDigits), -(fracDigits.length : Int)),
              r2.drop fracDigits.length)
    else if intDigits.isEmpty then none
    else some ((digitsToNat intDigits, 0), c :: r2)
  | [] =>
    if intDigits.isEmpty then none
    else some ((digitsToNat intDigits, 0), [])

/-- Decimal construction from a string, `Decimal(text)`; `none` models the
raised `InvalidOperation`.  Keywords are compared case-insensitively. -/
def pyDecimalOfChars (l : List Char) : Option PyDec :=
  let cleaned := pyDropChar '_' (pyStrip l)
  let (neg, r0) := parseSign cleaned
  let low := r0.map asciiLower
  if low = "inf".data ∨ low = "infinity".data then
    some (.inf neg)
  else if pyStartsWith "nan".data low ∧ (low.drop 3).all (·.isDigit) then
    some .nan
  else if pyStartsWith "snan".data low ∧ (low.drop 4).all (·.isDigit) then
    some .snan
  else
    match parseCoefficient r0 with
    | none => none
    | some (ce, r1) =>
      match r1 with
      | [] => some (.num (if neg then -(ce.1 : Int) else (ce.1 : Int)) ce.2)
      | _ =>
        match parseExponent r1 with
        | some (e, []) =>
          some (.num (if neg then -(ce.1 : Int) else (ce.1 : Int)) (ce.2 + e))
        | _ => none

def pyDecimalOfString (s : String) : Option PyDec := pyDecimalOfChars s.data

/-- Python truthiness of a `Decimal` (`bool(d)`): zero is falsy.  The
value `coeff * 10 ^ exp` is zero exactly when the coefficient is. -/
def pyDecTruthy : PyDec → Bool
  | .num c _ => c ≠ 0
  | _ => true

/-- `d > Decimal("0")` (comparison with NaN is unreachable at the call
sites, which only feed values matched by `[\d,]+\.\d{2}`). -/
def pyDecGtZero : PyDec → Bool
  | .num c _ => 0 < c
  | .inf neg => !neg
  | _ => false

/-- `d == Decimal("0")` (numeric equality). -/
def pyDecIsZero : PyDec → Bool
  | .num c _ => c = 0
  | _ => false

/-! ## Locale normalizers (`app/parsers/base.py`)

`parse_amount_eu`, `parse_amount_us`, `parse_date_dmy`, `parse_date_ymd`,
`parse_date_dmy_slash`, `clean_text`, embedded line by line. -/

/-- BankParser.parse_amount_eu: European format, `1.234,56 -> 1234.56`.
Returns `none` where the Python returns `None` (empty/whitespace input, a
lone dash, or a failing `Decimal` construction). -/
def parse_amount_eu (s : String) : Option PyDec :=
  if s.data.isEmpty ∨ (pyStrip s.data).isEmpty then none
  else
    let t := pyDropChar ' ' (pyStrip s.data)
    if t.isEmpty ∨ t = ['-'] then none
    else pyDecimalOfChars (pyMapChar ',' '.' (pyDropChar '.' t))

/-- BankParser.parse_amount_us: US/international format, `1,234.56 -> 1234.56`. -/
def parse_amount_us (s : String) : Option PyDec :=
  if s.data.isEmpty ∨ (pyStrip s.data).isEmpty then none
  else
    let t := pyDropChar ' ' (pyStrip s.data)
    if t.isEmpty ∨ t = ['-'] then none
    else pyDecimalOfChars (pyDropChar ',' t)

/-- BankParser.clean_text: `" ".join(text.split()).strip()` (empty input gives
the empty string). -/
def clean_text (s : String) : String :=
  if s.data.isEmpty then ""
  else ⟨pyStrip (joinSep [' '] (splitWs s.data))⟩

/-! ### Dates -/

/-- Gregorian leap year, as `datetime.date` uses. -/
def isLeap (y : Nat) : Bool := (y % 4 == 0 && y % 100 != 0) || y % 400 == 0

/-- Days in a month (month assumed 1..12 when relevant). -/
def daysInMonth (y m : Nat) : Nat :=
  if m = 2 then (if isLeap y then 29 else 28)
  else if m = 4 ∨ m = 6 ∨ m = 9 ∨ m = 11 then 30
  else 31

/-- Validity condition the `datetime.date` constructor enforces. -/
def validYMD (y m d : Nat) : Bool :=
  1 ≤ y && y ≤ 9999 && 1 ≤ m && m ≤ 12 && 1 ≤ d && d ≤ daysInMonth y m

/-- A `datetime.date` value (the constructor validated its components). -/
structure PyDate where
  year : Nat
  month : Nat
  day : Nat
deriving DecidableEq, Repr

/-- Model of `date(y, m, d)` inside `try/except ValueError`: `none` when the
constructor raises. -/
def pyDate? (y m d : Nat) : Option PyDate :=
  if validYMD y m d then some ⟨y, m, d⟩ else none

/-- Component `(\d{1,2})` followed by a separator from `sepOK`, with the
backtracking the regex engine performs: two digits are tried first; the
one-digit alternative can only succeed when the second character is a
separator (it is never a digit in that case, so no deeper backtracking
exists).  Returns the numeric value and the input after the separator. -/
def parseD12 (sepOK : Char → Bool) : List Char → Option (Nat × List Char)
  | a :: b :: c :: rest =>
    if a.isDigit then
      if b.isDigit then
        if sepOK c then some (digitVal a * 10 + digitVal b, rest) else none
      else if sepOK b then some (digitVal a, c :: rest) else none
    else none
  | [a, b] =>
    if a.isDigit ∧ sepOK b then some (digitVal a, []) else none
  | _ => none

/-- Component `(\d{4})`: exactly four digits; trailing input is left alone
(the date patterns have no end anchor). -/
def parseD4 : List Char → Option (Nat × List Char)
  | a :: b :: c :: d :: rest =>
    if a.isDigit && b.isDigit && c.isDigit && d.isDigit then
      some (digitVal a * 1000 + digitVal b * 100 + digitVal c * 10 + digitVal d, rest)
    else none
  | _ => none

/-- Final component `(\d{1,2})` with nothing after it: greedy, so two digits
when available. -/
def parseD12end : List Char → Option (Nat × List Char)
  | a :: b :: rest =>
    if a.isDigit then
      if b.isDigit then some (digitVal a * 10 + digitVal b, rest)
      else some (digitVal a, b :: rest)
    else none
  | [a] => if a.isDigit then some (digitVal a, []) else none
  | _ => none

/-- Separator class `[./]`. -/
def sepDotSlash (c : Char) : Bool := c == '.' || c == '/'

/-- Separator `/` alone. -/
def sepSlash (c : Char) : Bool := c == '/'

/-- Anchored match of `(\d{1,2})sep(\d{1,2})sep(\d{4})` returning
`(day, month, year)`. -/
def matchD12D12D4 (sepOK : Char → Bool) (l : List Char) : Option (Nat × Nat × Nat) :=
  match parseD12 sepOK l with
  | none => none
  | some (d, r1) =>
    match parseD12 sepOK r1 with
    | none => none
    | some (m, r2) =>
      match parseD4 r2 with
      | none => none
      | some (y, _) => some (d, m, y)

/-- Anchored match of `(\d{4})[./](\d{1,2})[./](\d{1,2})` returning
`(year, month, day)`.  The `\d{4}` group is fixed-width, so it simply
requires four digits and then a separator. -/
def matchD4D12D12 (l : List Char) : Option (Nat × Nat × Nat) :=
  match parseD4 l with
  | none => none
  | some (y, r1) =>
    match r1 with
    | s :: r2 =>
      if sepDotSlash s then
        match parseD12 sepDotSlash r2 with
        | none => none
        | some (m, r3) =>
          match parseD12end r3 with
          | none => none
          | some (d, _) => some (y, m, d)
      else none
    | [] => none

/-- BankParser.parse_date_dmy: `DD.MM.YYYY` (or with `/`), optional trailing
dots removed first, trailing text after the matched token ignored. -/
def parse_date_dmy (s : String) : Option PyDate :=
  if s.data.isEmpty ∨ (pyStrip s.data).isEmpty then none
  else
    let t := pyRstripDot (pyStrip s.data)
    match matchD12D12D4 sepDotSlash t with
    | some (d, m, y) => pyDate? y m d
    | none => none

/-- BankParser.parse_date_ymd: `YYYY.MM.DD` format. -/
def parse_date_ymd (s : String) : Option PyDate :=
  if s.data.isEmpty ∨ (pyStrip s.data).isEmpty then none
  else
    let t := pyRstripDot (pyStrip s.data)
    match matchD4D12D12 t with
    | some (y, m, d) => pyDate? y m d
    | none => none

/-- BankParser.parse_date_dmy_slash: `DD/MM/YYYY` format (no dot stripping). -/
def parse_date_dmy_slash (s : String) : Option PyDate :=
  if s.data.isEmpty ∨ (pyStrip s.data).isEmpty then none
  else
    match matchD12D12D4 sepSlash (pyStrip s.data) with
    | some (d, m, y) => pyDate? y m d
    | none => none

/-! ## Canonical data model (`app/parsers/base.py` dataclasses) -/

/-- ParsedTransaction dataclass: one statement line item, all-default
construction then field-by-field mutation by an adapter. -/
structure ParsedTransaction where
  row_number : Nat := 0
  value_date : Option PyDate := none
  booking_date : Option PyDate := none
  debit : Option PyDec := none
  credit : Option PyDec := none
  counterparty : Option String := none
  counterparty_account : Option String := none
  counterparty_bank : Option String := none
  payment_code : Option String := none
  purpose : Option String := none
  reference_debit : Option String := none
  reference_credit : Option String := none
  reclamation_data : Option String := none
  fee : Option PyDec := none
deriving DecidableEq, Repr

/-- ParsedStatement dataclass: one statement document. -/
structure ParsedStatement where
  bank_code : String := ""
  bank_name : String := ""
  account_number : String := ""
  iban : Option String := none
  statement_number : Option String := none
  statement_date : Option PyDate := none
  period_start : Option PyDate := none
  period_end : Option PyDate := none
  opening_balance : Option PyDec := none
  closing_balance : Option PyDec := none
  total_debit : Option PyDec := none
  total_credit : Option PyDec := none
  currency : String := "EUR"
  client_name : Option String := none
  client_pib : Option String := none
  transactions : List ParsedTransaction := []
deriving DecidableEq, Repr

/-! ## Registry and orchestrator (`app/parsers/__init__.py`)

The registry is a dict filled by `register_parser` as each adapter module is
imported.  The adapter classes themselves are the nine parsers; their
`parse` behaviour is irrelevant to the orchestrator's dispatch, so the
embedding is parametric in the per-adapter parse functions (`Doc` abstracts
the opened document). -/

/-- One registered adapter class: its class attributes and its parse. -/
structure Adapter (Doc : Type) where
  bank_code : String
  bank_name : String
  parse : Doc → ParsedStatement

/-- The nine `bank_code` class attributes, in module-import order
(`adriatic, erste, hipotekarna, lovcen, nlb, prva, ucb, zapad, ziraat`). -/
def registryCodes : List String :=
  ["580", "540", "520", "565", "530", "535", "560", "570", "575"]

/-- BANK_PARSERS after `_load_parsers()`: each module's `@register_parser`
inserts its class keyed by its `bank_code` attribute.  `impl i` stands for
the i-th adapter's parse function (the dispatch logic never calls it for an
unknown code, which is what claim C5 checks). -/
def BANK_PARSERS {Doc : Type} (impl : Fin 9 → Doc → ParsedStatement) :
    List (String × Adapter Doc) :=
  [("580", ⟨"580", "Adriatic Bank", impl 0⟩),
   ("540", ⟨"540", "Erste Bank", impl 1⟩),
   ("520", ⟨"520", "Hipotekarna Banka", impl 2⟩),
   ("565", ⟨"565", "Lovcen Banka", impl 3⟩),
   ("530", ⟨"530", "NLB Banka", impl 4⟩),
   ("535", ⟨"535", "Prva Banka CG", impl 5⟩),
   ("560", ⟨"560", "Universal Capital Bank", impl 6⟩),
   ("570", ⟨"570", "Zapad Banka", impl 7⟩),
   ("575", ⟨"575", "Ziraat Bank Montenegro", impl 8⟩)]

/-- Dict lookup `BANK_PARSERS.get(bank_code)`; later insertions of the same
key would win, as in a Python dict. -/
def dictGet {α : Type} (entries : List (String × α)) (key : String) : Option α :=
  (entries.reverse.find? (fun e => e.1 == key)).map (·.2)

/-- The registry lookup (BANK_PARSERS.get): `None` for an unknown code, otherwise an instance of the
registered class. -/
def getParser {Doc : Type} (impl : Fin 9 → Doc → ParsedStatement)
    (bank_code : String) : Option (Adapter Doc) :=
  dictGet (BANK_PARSERS impl) bank_code

/-- The `ValueError` raised by `parse_file` for an unknown bank code (the
spec's UnsupportedBank failure), versus a normal result. -/
inductive ParseOutcome where
  | ok (stmt : ParsedStatement)
  | unsupportedBank (msg : String)
deriving DecidableEq, Repr

/-- parse_file: look up the adapter; raise (model: `unsupportedBank`) when
there is none, otherwise delegate to the adapter's parse. -/
def parse_file {Doc : Type} (impl : Fin 9 → Doc → ParsedStatement)
    (file_path : Doc) (bank_code : String) : ParseOutcome :=
  match getParser impl bank_code with
  | some p => .ok (p.parse file_path)
  | none => .unsupportedBank ("No parser registered for bank code: " ++ bank_code)

/-- Ambient state a parse run could in principle observe: wall-clock time,
environment variables, any other mutable global.  Nothing in the embedded
source reads any of it, which is what the determinism claim asserts. -/
structure Ambient where
  clock : Nat
  envVars : List (String × String)
  otherState : List String

/-- One engine invocation in the presence of ambient state.  The source of
`parse_file` and of every adapter consults only the document content and
the bank code, so the ambient argument is dead. -/
def parse_file_run {Doc : Type} (amb : Ambient)
    (impl : Fin 9 → Doc → ParsedStatement)
    (file_path : Doc) (bank_code : String) : ParseOutcome :=
  parse_file impl file_path bank_code

/-! ## The spec's amount grammars

Modelled from the spec: the source has no explicit grammar definition, so
the two decimal-separator conventions of spec section 4.3 ("European":
thousands separator dot, decimal separator comma, two fraction digits;
"International": thousands separator comma, decimal separator dot) are
rendered here as parse trees, to be compared with the code's normalizers. -/

/-- The character of one decimal digit. -/
def digitChar (d : Fin 10) : Char := Char.ofNat (48 + d.val)

/-- Parse tree of a grammar-conforming amount string: a leading digit
group, further three-digit groups (each preceded by the thousands
separator), and exactly two fraction digits after the decimal separator.
A tree is well-formed when the leading group has one to three digits. -/
structure AmountShape where
  lead : List (Fin 10)
  groups : List (Fin 10 × Fin 10 × Fin 10)
  f1 : Fin 10
  f2 : Fin 10

/-- Characters of one three-digit group. -/
def groupChars (g : Fin 10 × Fin 10 × Fin 10) : List Char :=
  [digitChar g.1, digitChar g.2.1, digitChar g.2.2]

/-- Render in the European grammar, e.g. `1.234,56`. -/
def euRenderChars (a : AmountShape) : List Char :=
  a.lead.map digitChar ++ (a.groups.flatMap fun g => '.' :: groupChars g)
    ++ ',' :: [digitChar a.f1, digitChar a.f2]

/-- Render in the International grammar, e.g. `1,234.56`. -/
def usRenderChars (a : AmountShape) : List Char :=
  a.lead.map digitChar ++ (a.groups.flatMap fun g => ',' :: groupChars g)
    ++ '.' :: [digitChar a.f1, digitChar a.f2]

/-- All integer-part digits of a shape, in order. -/
def amountIntDigits (a : AmountShape) : List (Fin 10) :=
  a.lead ++ a.groups.flatMap fun g => [g.1, g.2.1, g.2.2]

/-- Numeric value of a digit list. -/
def finDigitsToNat (l : List (Fin 10)) : Nat := l.foldl (fun a d => a * 10 + d.val) 0

/-- Coefficient of the exact decimal value a shape denotes (the value has
two fraction digits, so its exponent is -2). -/
def amountCoeff (a : AmountShape) : Nat :=
  finDigitsToNat (amountIntDigits a) * 100 + a.f1.val * 10 + a.f2.val

/-- Modelled from the spec: decision procedure for the European grammar
(groups of three digits separated by dots, decimal comma, two fraction
digits), used to state that a concrete string is malformed. -/
def euGroupsCheck : List Char → Bool
  | '.' :: a :: b :: c :: rest =>
    if a.isDigit && b.isDigit && c.isDigit then euGroupsCheck rest else false
  | ',' :: a :: b :: rest => a.isDigit && b.isDigit && rest.isEmpty
  | _ => false

/-- Modelled from the spec: a string conforms to the European amount
grammar. -/
def euConforms (s : String) : Bool :=
  let lead := s.data.takeWhile (·.isDigit)
  if lead.length < 1 ∨ 3 < lead.length then false
  else euGroupsCheck (s.data.drop lead.length)

/-- Modelled from the spec: group tail of the International grammar. -/
def usGroupsCheck : List Char → Bool
  | ',' :: a :: b :: c :: rest =>
    if a.isDigit && b.isDigit && c.isDigit then usGroupsCheck rest else false
  | '.' :: a :: b :: rest => a.isDigit && b.isDigit && rest.isEmpty
  | _ => false

/-- Modelled from the spec: a string conforms to the International amount
grammar. -/
def usConforms (s : String) : Bool :=
  let lead := s.data.takeWhile (·.isDigit)
  if lead.length < 1 ∨ 3 < lead.length then false
  else usGroupsCheck (s.data.drop lead.length)

/-! ## Shared regex components

Each regular expression of the embedded adapters is hand-compiled to a
matcher with the engine's leftmost / greedy / lazy behaviour.  Components
whose greedy repetition is followed by a token that can never start with a
repeated character need no backtracking (shortening the run would leave a
character of the run's own class where the next token must match). -/

/-- Leftmost search: try the anchored matcher at each start position. -/
def reSearch {α : Type} (tryAt : List Char → Option α) : List Char → Option α
  | [] =>
    match tryAt [] with
    | some r => some r
    | none => none
  | c :: rest =>
    match tryAt (c :: rest) with
    | some r => some r
    | none => reSearch tryAt rest

/-- Literal text component. -/
def pLit (w l : List Char) : Option (List Char) :=
  if pyStartsWith w l then some (l.drop w.length) else none

/-- Component `\s+` (maximal munch; every use is followed by a non-space
token, so no backtracking arises). -/
def pWsPlus (l : List Char) : Option (List Char) :=
  let run := l.takeWhile pyIsWs
  if run.isEmpty then none else some (l.drop run.length)

/-- Component `\s*` (maximal munch, same remark). -/
def pWsStar (l : List Char) : List Char :=
  l.drop (l.takeWhile pyIsWs).length

/-- Component `(\d+)` (maximal munch; always followed by a non-digit
token or nothing). -/
def pDigitsPlus (l : List Char) : Option (List Char × List Char) :=
  let run := l.takeWhile (·.isDigit)
  if run.isEmpty then none else some (run, l.drop run.length)

/-- Component `([\d,]+\.\d{2})`: a run of digits/commas, a dot, two
digits; the class run is maximal and cannot contain the dot, so it never
backtracks.  Returns the captured text and the rest. -/
def pAmountGroup (l : List Char) : Option (List Char × List Char) :=
  let run := l.takeWhile (fun c => c.isDigit || c == ',')
  if run.isEmpty then none
  else
    match l.drop run.length with
    | '.' :: a :: b :: rest =>
      if a.isDigit && b.isDigit then some (run ++ '.' :: [a, b], rest) else none
    | _ => none

/-! ## Ziraat Bank adapter (`app/parsers/ziraat.py`), transaction pass

`parse` runs `_parse_header` on page one and `_parse_transactions` on every
page; a page contributes `extract_tables()`, a list of tables, each a list
of rows of optional string cells.  The transaction pass below folds over
the concatenation of all pages' tables exactly as the per-page loop does;
the header pass touches only header fields, never the transaction list or
the `UKUPNO` totals logic. -/

/-- A table cell as pdfplumber returns it (`None` possible). -/
abbrev Cell := Option String

abbrev Row := List Cell

abbrev Table := List Row

/-- Python `len(row) > i and row[i]`: the cell exists, is not `None`, and
is a non-empty (truthy) string. -/
def cellNonEmpty (row : Row) (i : Nat) : Option String :=
  match row.get? i with
  | some (some s) => if s.data.isEmpty then none else some s
  | _ => none

/-- Anchored full match of `^(\d{3}-[\d]+-\d{2})$` (a counterparty account
line).  `\d+` is maximal and must be followed by `-`, so it never
backtracks; `$` demands the end of the line. -/
def ziraatAcctMatch (l : List Char) : Bool :=
  match l with
  | a :: b :: c :: '-' :: rest =>
    if a.isDigit && b.isDigit && c.isDigit then
      let run := rest.takeWhile (·.isDigit)
      if run.isEmpty then false
      else
        match rest.drop run.length with
        | '-' :: x :: y :: rest2 => x.isDigit && y.isDigit && rest2.isEmpty
        | _ => false
    else false
  | _ => false

/-- Anchored match of `(\d{2}\.\d{2}\.\d{4})`, returning the matched text. -/
def tryDmy10At (l : List Char) : Option (List Char) :=
  match l with
  | d1 :: d2 :: '.' :: m1 :: m2 :: '.' :: y1 :: y2 :: y3 :: y4 :: _ =>
    if d1.isDigit && d2.isDigit && m1.isDigit && m2.isDigit &&
       y1.isDigit && y2.isDigit && y3.isDigit && y4.isDigit then
      some [d1, d2, '.', m1, m2, '.', y1, y2, y3, y4]
    else none
  | _ => none

/-- Anchored match of `Naknada\s+([\d,]+\.\d{2})`. -/
def tryNaknadaAt (l : List Char) : Option (List Char) :=
  match pLit "Naknada".data l with
  | none => none
  | some r1 =>
    match pWsPlus r1 with
    | none => none
    | some r2 => (pAmountGroup r2).map (·.1)

/-- ZiraatParser._parse_counterparty. -/
def ziraatCounterparty (cell : String) (txn : ParsedTransaction) : ParsedTransaction :=
  let lines := ((splitNl cell.data).map pyStrip).filter (¬ ·.isEmpty)
  if lines.isEmpty then txn
  else
    let account := ((lines.filter ziraatAcctMatch).getLast?).map (String.mk)
    let name_lines := lines.filter (fun l => !ziraatAcctMatch l)
    { txn with
      counterparty_account := account
      counterparty :=
        if name_lines.isEmpty then none
        else some (clean_text ⟨joinSep ", ".data name_lines⟩) }

/-- ZiraatParser._parse_debit_with_fee: first line is the debit amount, a
`Naknada` second line may carry a positive fee. -/
def ziraatDebitWithFee (cell : String) (txn : ParsedTransaction) : ParsedTransaction :=
  let lines := ((splitNl cell.data).map pyStrip).filter (¬ ·.isEmpty)
  match lines with
  | [] => txn
  | first :: rest =>
    let txn := { txn with debit := parse_amount_us ⟨first⟩ }
    match rest with
    | second :: _ =>
      match reSearch tryNaknadaAt second with
      | some cap =>
        match parse_amount_us ⟨cap⟩ with
        | some fee =>
          if pyDecTruthy fee && pyDecGtZero fee then { txn with fee := some fee } else txn
        | none => txn
      | none => txn
    | [] => txn

/-- The reference column (column 7): split into debit/credit references
unless the cell is the empty-parenthesis placeholder. -/
def ziraatRefsCol (cell : String) (txn : ParsedTransaction) : ParsedTransaction :=
  let ref := pyStrip cell.data
  if ¬ ref.isEmpty ∧ ref ≠ "( )\n( )".data then
    let ref_lines := ((splitNl ref).map pyStrip).filter (¬ ·.isEmpty)
    match ref_lines with
    | [] => txn
    | first :: rest =>
      let txn :=
        { txn with reference_debit := if first ≠ "( )".data then some ⟨first⟩ else none }
      match rest with
      | second :: _ =>
        { txn with reference_credit := if second ≠ "( )".data then some ⟨second⟩ else none }
      | [] => txn
  else txn

/-- One Ziraat transaction row (first cell already known to be a digit
string of value `rb`): columns 1..8 in source order. -/
def ziraatBuildTxn (row : Row) (rb : Nat) : ParsedTransaction :=
  let txn : ParsedTransaction := { row_number := rb }
  let txn :=
    match cellNonEmpty row 1 with
    | some cell => ziraatCounterparty cell txn
    | none => txn
  let txn :=
    match cellNonEmpty row 2 with
    | some cell =>
      match reSearch tryDmy10At cell.data with
      | some cap =>
        let bd := parse_date_dmy ⟨cap⟩
        { txn with booking_date := bd, value_date := bd }
      | none => txn
    | none => txn
  let txn :=
    match cellNonEmpty row 3 with
    | some cell => ziraatDebitWithFee cell txn
    | none => txn
  let txn :=
    match cellNonEmpty row 4 with
    | some cell => { txn with credit := parse_amount_us cell }
    | none => txn
  let txn :=
    match cellNonEmpty row 5 with
    | some cell => { txn with payment_code := some (pyStripS cell) }
    | none => txn
  let txn :=
    match cellNonEmpty row 6 with
    | some cell => { txn with purpose := some (clean_text cell) }
    | none => txn
  let txn :=
    match cellNonEmpty row 7 with
    | some cell => ziraatRefsCol cell txn
    | none => txn
  match cellNonEmpty row 8 with
  | some cell => { txn with reclamation_data := some (clean_text cell) }
  | none => txn

/-- Totals carried by the Ziraat transaction pass. -/
structure ZiraatState where
  total_debit : Option PyDec := none
  total_credit : Option PyDec := none
  transactions : List ParsedTransaction := []
deriving Repr

/-- The `UKUPNO` totals row: cells from column 3 on, first line of each,
assigned when the parsed amount is truthy (non-`None` and non-zero). -/
def ziraatUkupno (st : ZiraatState) (row : Row) : ZiraatState :=
  (row.enum).foldl
    (fun st p =>
      let cl := pyStrip (((p.2).getD "").data)
      if 3 ≤ p.1 ∧ ¬ cl.isEmpty then
        let amt :=
          match splitNl cl with
          | first :: _ => parse_amount_us ⟨first⟩
          | [] => none
        match amt with
        | some a =>
          if p.1 = 3 ∧ pyDecTruthy a then { st with total_debit := some a }
          else if p.1 = 4 ∧ pyDecTruthy a then { st with total_credit := some a }
          else st
        | none => st
      else st)
    st

/-- The candidate transaction a digit-labelled row produces, if its debit
or credit resolved (the retention guard at the end of the row loop). -/
def ziraatRowTxn (row : Row) : Option ParsedTransaction :=
  match cellNonEmpty row 0 with
  | none => none
  | some c0 =>
    let rb := pyStrip c0.data
    if pyIsdigit rb then
      let txn := ziraatBuildTxn row (digitsToNat rb)
      if txn.debit ≠ none ∨ txn.credit ≠ none then some txn else none
    else none

/-- One row of the Ziraat `_parse_transactions` loop. -/
def ziraatStep (st : ZiraatState) (row : Row) : ZiraatState :=
  match cellNonEmpty row 0 with
  | none => st
  | some c0 =>
    let rb := pyStrip c0.data
    if pyIsdigit rb then
      let txn := ziraatBuildTxn row (digitsToNat rb)
      if txn.debit ≠ none ∨ txn.credit ≠ none then
        { st with transactions := st.transactions ++ [txn] }
      else st
    else if pyContains "UKUPNO".data c0.data then ziraatUkupno st row
    else st

/-- The Ziraat transaction pass over all tables of all pages, in order. -/
def ziraatRun (tables : List Table) : ZiraatState :=
  tables.foldl (fun st table => table.foldl ziraatStep st) {}

/-- Transactions the Ziraat adapter returns for the given tables. -/
def ziraatTxns (tables : List Table) : List ParsedTransaction :=
  (ziraatRun tables).transactions

/-- The digit labels of the digit-labelled rows, in document order (what
`int(rb)` reads for each candidate row). -/
def ziraatRbLabels (tables : List Table) : List Nat :=
  (tables.flatMap id).filterMap fun row =>
    match cellNonEmpty row 0 with
    | none => none
    | some c0 =>
      let rb := pyStrip c0.data
      if pyIsdigit rb then some (digitsToNat rb) else none

/-- The digit label of one row, if any (the per-row view of
`ziraatRbLabels`). -/
def ziraatRowLabel (row : Row) : Option Nat :=
  match cellNonEmpty row 0 with
  | none => none
  | some c0 =>
    let rb := pyStrip c0.data
    if pyIsdigit rb then some (digitsToNat rb) else none

/-- A document whose RB labels run 2, 1, 1: out of order and duplicated. -/
def c2BadTables : List Table :=
  [[[some "2", none, none, some "1.00"],
    [some "1", none, none, some "2.00"],
    [some "1", none, none, some "2.00"]]]

/-- A document whose RB labels run 1, 2 in order. -/
def c2GoodTables : List Table :=
  [[[some "1", none, none, some "1.00"],
    [some "2", none, none, some "2.00"]]]

/-- A document with a single retained row whose debit cell reads `0.00`. -/
def c1BadTables : List Table := [[[some "1", none, none, some "0.00"]]]

/-! ## Zapad Banka adapter (`app/parsers/zapad.py`), daily format

`_parse_daily` concatenates all page texts and runs `_parse_daily_header`
then `_parse_daily_transactions` on the result; both are embedded below
over that full text. -/

/-- Account component `(\d{3}-[\d]+(?:-\d+)?)`.  The optional `-\d+` is
greedy, and its failure can only surface later in the pattern, so both
candidates are produced, the longer first, for the caller to try in order. -/
def zapadAccountCands (l : List Char) : List (List Char × List Char) :=
  match l with
  | a :: b :: c :: '-' :: rest =>
    if a.isDigit && b.isDigit && c.isDigit then
      let run := rest.takeWhile (·.isDigit)
      if run.isEmpty then []
      else
        let base := [a, b, c, '-'] ++ run
        let r2 := rest.drop run.length
        match r2 with
        | '-' :: r3 =>
          let run2 := r3.takeWhile (·.isDigit)
          if run2.isEmpty then [(base, r2)]
          else [(base ++ '-' :: run2, r3.drop run2.length), (base, r2)]
        | _ => [(base, r2)]
    else []
  | _ => []

/-- After the account: `\s+(amount)\s+(amount)` and then the caller's end
check (`\s*$`, or a third amount for the 3-amount branch). -/
def zapadTwoAmounts {α : Type} (endk : List Char → Option α) (l : List Char) :
    Option (List Char × List Char × α) :=
  match pWsPlus l with
  | none => none
  | some r3 =>
    match pAmountGroup r3 with
    | none => none
    | some (a1, r4) =>
      match pWsPlus r4 with
      | none => none
      | some r5 =>
        match pAmountGroup r5 with
        | none => none
        | some (a2, r6) => (endk r6).map fun x => (a1, a2, x)

/-- The tail after the lazy counterparty group: `\s+(account)` then the
amounts; account candidates are tried greedily against the whole rest of
the pattern. -/
def zapadTail {α : Type} (endk : List Char → Option α) (l : List Char) :
    Option (List Char × List Char × List Char × α) :=
  match pWsPlus l with
  | none => none
  | some r1 =>
    (zapadAccountCands r1).findSome? fun ar =>
      (zapadTwoAmounts endk ar.2).map fun t => (ar.1, t.1, t.2.1, t.2.2)

/-- The lazy group `(.+?)` (no newlines): at each boundary, first try the
tail, then grow by one character. -/
def zapadMidLoop {α : Type} (endk : List Char → Option α) :
    List Char → List Char → Option (List Char × List Char × List Char × List Char × α)
  | accRev, [] =>
    match (if accRev.isEmpty then none else zapadTail endk []) with
    | some t => some (accRev.reverse, t.1, t.2.1, t.2.2.1, t.2.2.2)
    | none => none
  | accRev, c :: rs =>
    match (if accRev.isEmpty then none else zapadTail endk (c :: rs)) with
    | some t => some (accRev.reverse, t.1, t.2.1, t.2.2.1, t.2.2.2)
    | none => if c = '\n' then none else zapadMidLoop endk (c :: accRev) rs

/-- The greedy `\s+` before `(.+?)` backtracks from the maximal run down to
one consumed character (the lazy group may end up matching whitespace, as
the engine does on e.g. `1. 22   570-1-11 1.00 2.00`). -/
def zapadWsMidGo {α : Type} (endk : List Char → Option α) (l : List Char) :
    Nat → Option (List Char × List Char × List Char × List Char × α)
  | 0 => none
  | k + 1 =>
    match zapadMidLoop endk [] (l.drop (k + 1)) with
    | some r => some r
    | none => zapadWsMidGo endk l k

/-- Segment `\s+(.+?)` followed by the tail. -/
def zapadWsMid {α : Type} (endk : List Char → Option α) (l : List Char) :
    Option (List Char × List Char × List Char × List Char × α) :=
  let run := l.takeWhile pyIsWs
  if run.isEmpty then none else zapadWsMidGo endk l run.length

/-- Common head `^(\d+)\.\s+(\d+)` of both transaction-line patterns. -/
def zapadMatchPre (l : List Char) : Option (List Char × List Char × List Char) :=
  match pDigitsPlus l with
  | none => none
  | some (g1, r1) =>
    match r1 with
    | '.' :: r2 =>
      match pWsPlus r2 with
      | none => none
      | some r3 =>
        match pDigitsPlus r3 with
        | none => none
        | some (g2, r4) => some (g1, g2, r4)
    | _ => none

/-- Captured groups of a Zapad daily transaction line. -/
structure ZapadGroups where
  g1 : List Char
  g2 : List Char
  g3 : List Char
  g4 : List Char
  g5 : List Char
  g6 : List Char
  g7 : Option (List Char)
deriving Repr

/-- End check `\s*$` of the 2-amount pattern. -/
def zapadEndTwo (l : List Char) : Option Unit :=
  if l.all pyIsWs then some () else none

/-- End check `\s+([\d,]+\.\d{2})\s*$` of the 3-amount pattern. -/
def zapadEndThree (l : List Char) : Option (List Char) :=
  match pWsPlus l with
  | none => none
  | some r =>
    match pAmountGroup r with
    | none => none
    | some (a3, r2) => if r2.all pyIsWs then some a3 else none

/-- The 2-amount transaction-line pattern of `_parse_daily_transactions`. -/
def zapadMatchTwo (l : List Char) : Option ZapadGroups :=
  (zapadMatchPre l).bind fun p =>
    (zapadWsMid zapadEndTwo p.2.2).map fun r =>
      ⟨p.1, p.2.1, r.1, r.2.1, r.2.2.1, r.2.2.2.1, none⟩

/-- The 3-amount transaction-line pattern. -/
def zapadMatchThree (l : List Char) : Option ZapadGroups :=
  (zapadMatchPre l).bind fun p =>
    (zapadWsMid zapadEndThree p.2.2).map fun r =>
      ⟨p.1, p.2.1, r.1, r.2.1, r.2.2.1, r.2.2.2.1, some r.2.2.2.2⟩

/-- The stop test `re.match(r"^\d+\.\s+\d+\s+", line)`. -/
def zapadStartTxnTest (s : List Char) : Bool :=
  match pDigitsPlus s with
  | some (_, '.' :: r) =>
    (match pWsPlus r with
     | some r2 =>
       match pDigitsPlus r2 with
       | some (_, r3) => (pWsPlus r3).isSome
       | none => false
     | none => false)
  | _ => false

/-- Stop markers of the 2-amount branch purpose collector. -/
def zapadStopTwo (s : List Char) : Bool :=
  zapadStartTxnTest s ||
  pyStartsWith "UKUPNO:".data s ||
  pyStartsWith "Prethodno stanje:".data s ||
  pyStartsWith "Krajnje stanje:".data s ||
  pyStartsWith "Ovaj dokument".data s

/-- Stop markers of the 3-amount branch purpose collector. -/
def zapadStopThree (s : List Char) : Bool :=
  zapadStartTxnTest s ||
  pyStartsWith "UKUPNO:".data s ||
  pyStartsWith "Prethodno stanje:".data s

/-- Collect purpose lines: blank lines are skipped, a stop line ends the
block and stays in the remainder for the outer loop. -/
def zapadCollect (stop : List Char → Bool) : List String → List (List Char) × List String
  | [] => ([], [])
  | line :: rest =>
    let s := pyStrip line.data
    if s.isEmpty then zapadCollect stop rest
    else if stop s then ([], line :: rest)
    else
      let pr := zapadCollect stop rest
      (s :: pr.1, pr.2)

/-- The transaction built from a 2-amount line: the single amount is taken
as debit, credit is set to zero, pending the document-total
disambiguation. -/
def zapadTxnTwo (stmtDate : Option PyDate) (g : ZapadGroups)
    (purp : List (List Char)) : ParsedTransaction :=
  { row_number := digitsToNat g.g1
    payment_code := some ⟨g.g2⟩
    counterparty := some (clean_text ⟨g.g3⟩)
    counterparty_account := some ⟨g.g4⟩
    debit := parse_amount_us ⟨g.g5⟩
    credit := some (.num 0 0)
    purpose := if ¬ purp.isEmpty then some (clean_text ⟨joinSep [' '] purp⟩) else none
    value_date := stmtDate
    booking_date := stmtDate }

/-- The transaction built from a 3-amount line: debit and credit columns. -/
def zapadTxnThree (stmtDate : Option PyDate) (g : ZapadGroups)
    (purp : List (List Char)) : ParsedTransaction :=
  { row_number := digitsToNat g.g1
    payment_code := some ⟨g.g2⟩
    counterparty := some (clean_text ⟨g.g3⟩)
    counterparty_account := some ⟨g.g4⟩
    debit := parse_amount_us ⟨g.g5⟩
    credit := parse_amount_us ⟨g.g6⟩
    value_date := stmtDate
    booking_date := stmtDate
    purpose := if ¬ purp.isEmpty then some (clean_text ⟨joinSep [' '] purp⟩) else none }

/-- The scanning loop of `_parse_daily_transactions`; the fuel bounds the
number of iterations and `lines.length` always suffices because every
iteration consumes at least one line. -/
def zapadLoopGo (stmtDate : Option PyDate) : Nat → List String → List ParsedTransaction
  | 0, _ => []
  | _ + 1, [] => []
  | fuel + 1, line :: rest =>
    let s := pyStrip line.data
    match zapadMatchTwo s with
    | some g =>
      let pr := zapadCollect zapadStopTwo rest
      zapadTxnTwo stmtDate g pr.1 :: zapadLoopGo stmtDate fuel pr.2
    | none =>
      match zapadMatchThree s with
      | some g =>
        let pr := zapadCollect zapadStopThree rest
        zapadTxnThree stmtDate g pr.1 :: zapadLoopGo stmtDate fuel pr.2
      | none => zapadLoopGo stmtDate fuel rest

/-! ### Zapad daily header searches -/

/-- Search target `IZVOD\s+RAČUNA\s*-\s*broj\s+(\d+)`. -/
def tryIzvodBrojAt (l : List Char) : Option (List Char) :=
  (pLit "IZVOD".data l).bind fun r1 =>
  (pWsPlus r1).bind fun r2 =>
  (pLit "RAČUNA".data r2).bind fun r3 =>
  (pLit "-".data (pWsStar r3)).bind fun r4 =>
  (pLit "broj".data (pWsStar r4)).bind fun r5 =>
  (pWsPlus r5).bind fun r6 =>
  (pDigitsPlus r6).map (·.1)

/-- Search target `za\s+dan\s+(\d{2}\.\d{2}\.\d{4})`. -/
def tryZaDanAt (l : List Char) : Option (List Char) :=
  (pLit "za".data l).bind fun r1 =>
  (pWsPlus r1).bind fun r2 =>
  (pLit "dan".data r2).bind fun r3 =>
  (pWsPlus r3).bind fun r4 =>
  tryDmy10At r4

/-- Terminator `(?:\s{2,}|Žiro)` of the client-name pattern. -/
def klijentTermTest (l : List Char) : Bool :=
  (match l with
   | a :: b :: _ => pyIsWs a && pyIsWs b
   | _ => false) || pyStartsWith "Žiro".data l

/-- Lazy `(.+?)` before the terminator. -/
def klijentMidLoop : List Char → List Char → Option (List Char)
  | accRev, [] =>
    if ¬ accRev.isEmpty ∧ klijentTermTest [] then some accRev.reverse else none
  | accRev, c :: rs =>
    if ¬ accRev.isEmpty ∧ klijentTermTest (c :: rs) then some accRev.reverse
    else if c = '\n' then none else klijentMidLoop (c :: accRev) rs

/-- Greedy `\s*` before the lazy group, backtracking down to zero. -/
def klijentGoK (r : List Char) : Nat → Option (List Char)
  | 0 => klijentMidLoop [] r
  | k + 1 =>
    match klijentMidLoop [] (r.drop (k + 1)) with
    | some m => some m
    | none => klijentGoK r k

/-- Search target `Klijent:\s*(.+?)(?:\s{2,}|Žiro)`. -/
def tryKlijentAt (l : List Char) : Option (List Char) :=
  (pLit "Klijent:".data l).bind fun r =>
    klijentGoK r (r.takeWhile pyIsWs).length

/-- Search target `JMBG/PIB:\s*(\d+)`. -/
def tryJmbgPibAt (l : List Char) : Option (List Char) :=
  (pLit "JMBG/PIB:".data l).bind fun r =>
    (pDigitsPlus (pWsStar r)).map (·.1)

/-- Search target `Žiro\s+račun:\s*([\d\-]+)`. -/
def tryZiroRacunAt (l : List Char) : Option (List Char) :=
  (pLit "Žiro".data l).bind fun r1 =>
  (pWsPlus r1).bind fun r2 =>
  (pLit "račun:".data r2).bind fun r3 =>
    let r4 := pWsStar r3
    let run := r4.takeWhile fun c => c.isDigit || c == '-'
    if run.isEmpty then none else some run

/-- Search target `Valuta:\s*\d+\s+(\w+)`. -/
def tryValutaAt (l : List Char) : Option (List Char) :=
  (pLit "Valuta:".data l).bind fun r1 =>
  (pDigitsPlus (pWsStar r1)).bind fun p =>
  (pWsPlus p.2).bind fun r2 =>
    let run := r2.takeWhile fun c => c.isAlphanum || c == '_'
    if run.isEmpty then none else some run

/-- Search target `Prethodno\s+stanje:\s*([\d,]+\.\d{2})`. -/
def tryPrethodnoAt (l : List Char) : Option (List Char) :=
  (pLit "Prethodno".data l).bind fun r1 =>
  (pWsPlus r1).bind fun r2 =>
  (pLit "stanje:".data r2).bind fun r3 =>
  (pAmountGroup (pWsStar r3)).map (·.1)

/-- Search target `Krajnje\s+stanje:\s*([\d,]+\.\d{2})`. -/
def tryKrajnjeAt (l : List Char) : Option (List Char) :=
  (pLit "Krajnje".data l).bind fun r1 =>
  (pWsPlus r1).bind fun r2 =>
  (pLit "stanje:".data r2).bind fun r3 =>
  (pAmountGroup (pWsStar r3)).map (·.1)

/-- Search target `Ukupni\s+promet\s*-\s*duguje:\s*([\d,]+\.\d{2})`. -/
def tryDugujeAt (l : List Char) : Option (List Char) :=
  (pLit "Ukupni".data l).bind fun r1 =>
  (pWsPlus r1).bind fun r2 =>
  (pLit "promet".data r2).bind fun r3 =>
  (pLit "-".data (pWsStar r3)).bind fun r4 =>
  (pLit "duguje:".data (pWsStar r4)).bind fun r5 =>
  (pAmountGroup (pWsStar r5)).map (·.1)

/-- Search target `Ukupni\s+promet\s*-\s*potražuje:\s*([\d,]+\.\d{2})`. -/
def tryPotrazujeAt (l : List Char) : Option (List Char) :=
  (pLit "Ukupni".data l).bind fun r1 =>
  (pWsPlus r1).bind fun r2 =>
  (pLit "promet".data r2).bind fun r3 =>
  (pLit "-".data (pWsStar r3)).bind fun r4 =>
  (pLit "potražuje:".data (pWsStar r4)).bind fun r5 =>
  (pAmountGroup (pWsStar r5)).map (·.1)

/-- ZapadParser._parse_daily_header over the full document text. -/
def zapadDailyHeader (text : String) : ParsedStatement :=
  let t := text.data
  let stmt : ParsedStatement := { bank_code := "570", bank_name := "Zapad Banka" }
  let stmt :=
    match reSearch tryIzvodBrojAt t with
    | some cap => { stmt with statement_number := some ⟨cap⟩ }
    | none => stmt
  let stmt :=
    match reSearch tryZaDanAt t with
    | some cap => { stmt with statement_date := parse_date_dmy ⟨cap⟩ }
    | none => stmt
  let stmt :=
    match reSearch tryKlijentAt t with
    | some cap => { stmt with client_name := some (clean_text ⟨cap⟩) }
    | none => stmt
  let stmt :=
    match reSearch tryJmbgPibAt t with
    | some cap => { stmt with client_pib := some ⟨cap⟩ }
    | none => stmt
  let stmt :=
    match reSearch tryZiroRacunAt t with
    | some cap => { stmt with account_number := ⟨cap⟩ }
    | none => stmt
  let stmt :=
    match reSearch tryValutaAt t with
    | some cap => { stmt with currency := ⟨cap⟩ }
    | none => stmt
  let stmt :=
    match reSearch tryPrethodnoAt t with
    | some cap => { stmt with opening_balance := parse_amount_us ⟨cap⟩ }
    | none => stmt
  let stmt :=
    match reSearch tryKrajnjeAt t with
    | some cap => { stmt with closing_balance := parse_amount_us ⟨cap⟩ }
    | none => stmt
  let stmt :=
    match reSearch tryDugujeAt t with
    | some cap => { stmt with total_debit := parse_amount_us ⟨cap⟩ }
    | none => stmt
  match reSearch tryPotrazujeAt t with
  | some cap => { stmt with total_credit := parse_amount_us ⟨cap⟩ }
  | none => stmt

/-- The per-transaction reclassification applied when the document totals
say every amount is a credit. -/
def zapadSwapTxn (t : ParsedTransaction) : ParsedTransaction :=
  { t with credit := t.debit, debit := some (.num 0 0) }

/-- The post-processing of `_parse_daily_transactions`: reclassify all
amounts as credits only when the debit total is zero and the credit total
is truthy and positive. -/
def zapadPost (stmt : ParsedStatement) : ParsedStatement :=
  let credZero :=
    match stmt.total_credit with
    | some c => pyDecIsZero c
    | none => false
  let debPos :=
    match stmt.total_debit with
    | some d => pyDecTruthy d && pyDecGtZero d
    | none => false
  let debZero :=
    match stmt.total_debit with
    | some d => pyDecIsZero d
    | none => false
  let credPos :=
    match stmt.total_credit with
    | some c => pyDecTruthy c && pyDecGtZero c
    | none => false
  if credZero && debPos then stmt
  else if debZero && credPos then
    { stmt with transactions := stmt.transactions.map zapadSwapTxn }
  else stmt

/-- ZapadParser._parse_daily over the concatenated page text. -/
def zapadDaily (text : String) : ParsedStatement :=
  let stmt := zapadDailyHeader text
  let lines := (splitNl text.data).map String.mk
  let txns := zapadLoopGo stmt.statement_date lines.length lines
  zapadPost { stmt with transactions := txns }

/-- A daily document whose debit and credit totals are both `0.00`, with
one two-amount transaction line. -/
def c7TextBoth : String :=
  "Ukupni promet - duguje: 0.00\nUkupni promet - potražuje: 0.00\n1. 56218282 Zapad banka AD 570-0000000057001-31 58.80 7,588.45\nUKUPNO: 58.80 0.00 7,588.45\n"

/-- A daily document with a zero debit total and a positive credit total,
with the same transaction line. -/
def c7TextSwap : String :=
  "Ukupni promet - duguje: 0.00\nUkupni promet - potražuje: 58.80\n1. 56218282 Zapad banka AD 570-0000000057001-31 58.80 7,588.45\nUKUPNO: 58.80 0.00 7,588.45\n"

/-! ## Universal Capital Bank adapter (`app/parsers/ucb.py`), transaction
pass, over the tables of all pages as for Ziraat. -/

/-- Python `str.rstrip(",")`. -/
def pyRstripComma (l : List Char) : List Char := (l.reverse.dropWhile (· == ',')).reverse

/-- Anchored match of `(\d{15,18})\s*$`: greedy, so eighteen digits are
tried first; after the digits only whitespace may remain. -/
def ucbAcctTryAt (l : List Char) : Option (List Char) :=
  let tryLen : Nat → Option (List Char) := fun n =>
    if n ≤ l.length ∧ (l.take n).all (·.isDigit) ∧ (l.drop n).all pyIsWs then
      some (l.take n)
    else none
  match tryLen 18 with
  | some r => some r
  | none =>
    match tryLen 17 with
    | some r => some r
    | none =>
      match tryLen 16 with
      | some r => some r
      | none => tryLen 15

/-- Leftmost search of `(\d{15,18})\s*$` returning `(m.start(), m.group(1))`. -/
def ucbAcctSearchGo : Nat → List Char → Option (Nat × List Char)
  | _, [] => none
  | i, c :: rest =>
    match ucbAcctTryAt (c :: rest) with
    | some cap => some (i, cap)
    | none => ucbAcctSearchGo (i + 1) rest

/-- One `re.sub(r",\s*,", ",", ...)` scan step; matches never overlap and
scanning resumes after a replacement. -/
def ucbSubCommaComma : Nat → List Char → List Char
  | 0, l => l
  | fuel + 1, l =>
    match l with
    | [] => []
    | ',' :: rest =>
      let ws := rest.takeWhile pyIsWs
      (match rest.drop ws.length with
       | ',' :: rest2 => ',' :: ucbSubCommaComma fuel rest2
       | _ => ',' :: ucbSubCommaComma fuel rest)
    | c :: rest => c :: ucbSubCommaComma fuel rest

/-- UCBParser._parse_counterparty: the last line carrying a 15-18 digit
account tail sets the account; everything else joins the name. -/
def ucbCounterparty (cell : String) (txn : ParsedTransaction) : ParsedTransaction :=
  let lines := ((splitNl cell.data).map pyStrip).filter (¬ ·.isEmpty)
  if lines.isEmpty then txn
  else
    let step := fun (st : Option (List Char) × List (List Char)) (line : List Char) =>
      match ucbAcctSearchGo 0 line with
      | some (i, cap) =>
        let pre := pyStrip (pyRstripComma (pyStrip (line.take i)))
        if ¬ pre.isEmpty then (some cap, st.2 ++ [pre]) else (some cap, st.2)
      | none => (st.1, st.2 ++ [line])
    let res := lines.foldl step (none, [])
    let full := joinSep ", ".data res.2
    let full := ucbSubCommaComma full.length full
    { txn with
      counterparty_account := res.1.map String.mk
      counterparty := some (clean_text ⟨full⟩) }

/-- Anchored match of `(\d{4}\.\d{2}\.\d{2})`, returning the matched text. -/
def tryYmd10At (l : List Char) : Option (List Char) :=
  match l with
  | y1 :: y2 :: y3 :: y4 :: '.' :: m1 :: m2 :: '.' :: d1 :: d2 :: _ =>
    if y1.isDigit && y2.isDigit && y3.isDigit && y4.isDigit &&
       m1.isDigit && m2.isDigit && d1.isDigit && d2.isDigit then
      some [y1, y2, y3, y4, '.', m1, m2, '.', d1, d2]
    else none
  | _ => none

/-- One UCB transaction row (columns 1..8 in source order). -/
def ucbBuildTxn (row : Row) (rb : Nat) : ParsedTransaction :=
  let txn : ParsedTransaction := { row_number := rb }
  let txn :=
    match cellNonEmpty row 1 with
    | some cell => ucbCounterparty cell txn
    | none => txn
  let txn :=
    match cellNonEmpty row 2 with
    | some cell =>
      match reSearch tryYmd10At cell.data with
      | some cap =>
        let bd := parse_date_ymd ⟨cap⟩
        { txn with booking_date := bd, value_date := bd }
      | none => txn
    | none => txn
  let txn :=
    match cellNonEmpty row 3 with
    | some cell => { txn with debit := parse_amount_us cell }
    | none => txn
  let txn :=
    match cellNonEmpty row 4 with
    | some cell => { txn with credit := parse_amount_us cell }
    | none => txn
  let txn :=
    match cellNonEmpty row 5 with
    | some cell => { txn with payment_code := some (pyStripS cell) }
    | none => txn
  let txn :=
    match cellNonEmpty row 6 with
    | some cell => { txn with purpose := some (clean_text cell) }
    | none => txn
  let txn :=
    match cellNonEmpty row 7 with
    | some cell =>
      let ref := pyStrip cell.data
      if ¬ ref.isEmpty then { txn with reference_credit := some (clean_text ⟨ref⟩) }
      else txn
    | none => txn
  match cellNonEmpty row 8 with
  | some cell => { txn with reclamation_data := some (clean_text cell) }
  | none => txn

/-- Totals carried by the UCB transaction pass. -/
structure UcbState where
  total_debit : Option PyDec := none
  total_credit : Option PyDec := none
  transactions : List ParsedTransaction := []
deriving Repr

/-- The `Ukupno` totals row of UCB (columns 3 and 4, assigned whatever the
amount parser returns). -/
def ucbUkupno (st : UcbState) (row : Row) : UcbState :=
  let st :=
    match cellNonEmpty row 3 with
    | some cell => { st with total_debit := parse_amount_us cell }
    | none => st
  match cellNonEmpty row 4 with
  | some cell => { st with total_credit := parse_amount_us cell }
  | none => st

/-- One row of the UCB `_parse_transactions` loop. -/
def ucbStep (st : UcbState) (row : Row) : UcbState :=
  match cellNonEmpty row 0 with
  | none => st
  | some c0 =>
    let rb := pyStrip c0.data
    if pyIsdigit rb then
      let txn := ucbBuildTxn row (digitsToNat rb)
      if txn.debit ≠ none ∨ txn.credit ≠ none then
        { st with transactions := st.transactions ++ [txn] }
      else st
    else if pyContains "Ukupno".data rb then ucbUkupno st row
    else st

/-- The UCB transaction pass over all tables of all pages, in order. -/
def ucbRun (tables : List Table) : UcbState :=
  tables.foldl (fun st table => table.foldl ucbStep st) {}

/-- Transactions the UCB adapter returns for the given tables. -/
def ucbTxns (tables : List Table) : List ParsedTransaction :=
  (ucbRun tables).transactions

/-- Scenario A synthetic grid row: RB, counterparty cell with an account
line, origin and date, debit, empty credit, payment code, purpose. -/
def c8Row : Row :=
  [some "1", some "GLOBEX DOO\n530-12345-67", some "00-Podgorica/ 2026.02.02",
   some "150,00", none, some "132", some "invoice payment"]

/-! ## NLB Banka glyph decoder (`app/parsers/nlb.py`)

`_decode_char` maps a pdfplumber character object with a
`(cid:N)` text through one of two fixed lookup tables chosen by font
weight; `_decode_page` groups decoded characters into lines by rounded
vertical position and reassembles words by a horizontal-gap threshold.
Coordinates are modelled as exact rationals. -/

/-- A pdfplumber character object (the fields the decoder reads). -/
structure CharObj where
  text : String
  fontname : String
  x0 : ℚ
  top : ℚ
  width : Option ℚ
deriving Repr

/-- The bold-weight CID lookup table `_BOLD_CID_MAP`. -/
def boldCidMap : List (Nat × Char) :=
  [(4, 'I'), (5, 'Z'), (6, 'V'), (7, 'O'), (8, 'D'), (9, 'B'), (10, 'R'), (11, '.'),
   (12, '1'), (13, 'A'), (14, 'P'), (15, 'M'), (16, 'J'), (17, 'E'), (18, 'N'), (19, 'U'),
   (20, 'S'), (21, 'T'), (22, 'C'), (23, '6'), (24, '0'), (25, '2'), (26, '5'), (27, '3'),
   (28, '-'), (29, '9'), (30, '7'), (31, 'o'), (32, 'k'), (33, 'r'), (34, 'i'), (35, 'ć'),
   (36, 'e'), (37, 'u'), (38, 'p'), (39, 'n')]

/-- The regular-weight CID lookup table `_REGULAR_CID_MAP`. -/
def regularCidMap : List (Nat × Char) :=
  [(4, '('), (5, 'N'), (6, 'a'), (7, 'z'), (8, 'i'), (9, 'v'), (10, 'l'), (11, 's'),
   (12, 'n'), (13, 'k'), (14, 'r'), (15, 'č'), (16, 'u'), (17, ')'), (18, 'B'), (19, 'o'),
   (20, 'j'), (21, 'P'), (22, 'e'), (23, 't'), (24, 'h'), (25, 'd'), (26, 'D'), (27, 'm'),
   (28, 'g'), (29, 'p'), (30, 'b'), (31, '0'), (32, '3'), (33, '4'), (34, '9'), (35, '5'),
   (36, '7'), (37, 'ž'), (38, 'I'), (39, 'š'), (40, 'ć'), (41, '.'), (42, 'R'), (43, 'T'),
   (44, '1'), (45, '6'), (46, 'c'), (47, '-'), (48, 'Š'), (49, 'f'), (50, 'S'), (51, 'L'),
   (52, 'A'), (53, ','), (54, 'C'), (55, 'E'), (56, 'K'), (57, '2'), (58, ':'), (59, 'U')]

/-- Table lookup `MAP.get(cid, "")`: the empty string for an unmapped code
(the glyph is dropped, not substituted). -/
def cidGet (m : List (Nat × Char)) (k : Nat) : String :=
  match m.find? (fun e => e.1 == k) with
  | some e => ⟨[e.2]⟩
  | none => ""

/-- Anchored match of `\(cid:(\d+)\)`, returning the numeric code. -/
def cidMatch (l : List Char) : Option Nat :=
  match l with
  | '(' :: 'c' :: 'i' :: 'd' :: ':' :: rest =>
    let run := rest.takeWhile (·.isDigit)
    if run.isEmpty then none
    else
      match rest.drop run.length with
      | ')' :: _ => some (digitsToNat run)
      | _ => none
  | _ => none

/-- NLBParser._decode_char: the decoded text and the bold flag. -/
def nlbDecodeChar (c : CharObj) : String × Bool :=
  let is_bold := pyContains "Bold".data c.fontname.data || pyContains "bold".data c.fontname.data
  match cidMatch c.text.data with
  | none => (c.text, is_bold)
  | some cid =>
    if is_bold then (cidGet boldCidMap cid, true) else (cidGet regularCidMap cid, false)

/-- Python `round()` (banker's rounding, ties to even). -/
def pyRound (q : ℚ) : Int :=
  let f := ⌊q⌋
  let r := q - (f : ℚ)
  if r < 1 / 2 then f
  else if 1 / 2 < r then f + 1
  else if f % 2 = 0 then f else f + 1

/-- Line key `round(y / 4) * 4`. -/
def nlbYKey (y : ℚ) : Int := pyRound (y / 4) * 4

/-- A decoded glyph: x position, decoded text, bold flag, rendered width
(`c.get("width", 5)`), plus the line key of its y position. -/
structure Glyph where
  x : ℚ
  ch : String
  bold : Bool
  w : ℚ
  yKey : Int
deriving Repr

/-- The decoded stream: characters whose decoded text is non-empty (all
others are dropped). -/
def nlbDecoded (chars : List CharObj) : List Glyph :=
  chars.filterMap fun c =>
    let d := nlbDecodeChar c
    if d.1.data.isEmpty then none
    else some ⟨c.x0, d.1, d.2, c.width.getD 5, nlbYKey c.top⟩

/-- Word-assembly state of the inner loop of `_decode_page`. -/
structure WordState where
  words : List (Option ℚ × String) := []
  current_word : String := ""
  word_start_x : Option ℚ := none
  current_end_x : Option ℚ := none
deriving Repr

/-- One glyph of the word-assembly loop: a gap over the threshold (2.0)
flushes the current word; the end position advances by the glyph's actual
rendered width (at least 3). -/
def nlbCombineStep (st : WordState) (g : Glyph) : WordState :=
  let gap : Bool :=
    match st.current_end_x with
    | some e => decide ((2 : ℚ) < g.x - e)
    | none => false
  if gap then
    { words :=
        if st.current_word ≠ "" then st.words ++ [(st.word_start_x, st.current_word)]
        else st.words
      current_word := g.ch
      word_start_x := some g.x
      current_end_x := some (g.x + max g.w 3) }
  else
    { words := st.words
      current_word := st.current_word ++ g.ch
      word_start_x := if st.current_word = "" then some g.x else st.word_start_x
      current_end_x := some (g.x + max g.w 3) }

/-- Assemble one line of glyphs (already sorted by x) into words. -/
def nlbCombine (gs : List Glyph) : List (Option ℚ × String) :=
  let st := gs.foldl nlbCombineStep {}
  if st.current_word ≠ "" then st.words ++ [(st.word_start_x, st.current_word)]
  else st.words

/-- Insertion into a sorted key list (ascending, no duplicates). -/
def insertKey (k : Int) : List Int → List Int
  | [] => [k]
  | h :: t => if k < h then k :: h :: t else if k = h then h :: t else h :: insertKey k t

/-- The distinct line keys in ascending order (`sorted(y_groups.keys())`). -/
def nlbSortedKeys (gs : List Glyph) : List Int :=
  gs.foldl (fun acc g => insertKey g.yKey acc) []

/-- Stable insertion sort by x position (`sorted(..., key=lambda p: p[0])`):
an element inserted from the left of the original list goes before every
element of equal key already placed. -/
def insertByX (g : Glyph) : List Glyph → List Glyph
  | [] => [g]
  | h :: t => if g.x ≤ h.x then g :: h :: t else h :: insertByX g t

/-- Stable sort of a line's glyphs by x. -/
def nlbSortByX (gs : List Glyph) : List Glyph :=
  gs.foldr insertByX []

/-- NLBParser._decode_page: decoded lines `(y_key, [(x, word), ...])` in
ascending key order; within a line, insertion order is kept for equal x
(Python's sort is stable). -/
def nlbDecodePage (chars : List CharObj) : List (Int × List (Option ℚ × String)) :=
  let decoded := nlbDecoded chars
  (nlbSortedKeys decoded).map fun k =>
    (k, nlbCombine (nlbSortByX (decoded.filter (fun g => g.yKey == k))))

/-- A font name of the requested weight (the decoder only tests for the
substring `Bold`/`bold`). -/
def fontOf (w : Bool) : String := if w then "ABCD-Bold" else "ABCD-Regular"

/-- Scenario D page: five bold glyphs with codes 4..8 (the bold table's
`I`,`Z`,`V`,`O`,`D`) packed within the gap threshold, followed after a gap
by two further glyphs of arbitrary weights on the same line. -/
def c9Chars (w1 w2 : Bool) : List CharObj :=
  [⟨"(cid:4)", "ABCD-Bold", 0, 100, some 5⟩,
   ⟨"(cid:5)", "ABCD-Bold", 6, 100, some 5⟩,
   ⟨"(cid:6)", "ABCD-Bold", 12, 100, some 5⟩,
   ⟨"(cid:7)", "ABCD-Bold", 18, 100, some 5⟩,
   ⟨"(cid:8)", "ABCD-Bold", 24, 100, some 5⟩,
   ⟨"(cid:9)", fontOf w1, 40, 100, some 5⟩,
   ⟨"(cid:10)", fontOf w2, 46, 100, some 5⟩]

/-! ## Helper lemmas -/

theorem digit_mem_enum (c : Char) (h : c.isDigit = true) : c ∈ ("0123456789".data) := by
  simp only [Char.isDigit, decide_eq_true_eq, Bool.and_eq_true] at h
  obtain ⟨h1, h2⟩ := h
  have hv1 : 48 ≤ c.toNat := h1
  have hv2 : c.toNat ≤ 57 := h2
  have hc : Char.ofNat c.toNat = c := Char.ofNat_toNat c
  interval_cases h3 : c.toNat <;> rw [← hc] <;> decide

/-- The per-character facts every digit character satisfies. -/
theorem digit_facts (c : Char) (h : c.isDigit = true) :
    asciiLower c = c ∧ pyIsWs c = false ∧ c ≠ '.' ∧ c ≠ ',' ∧ c ≠ '_' ∧
      c ≠ '+' ∧ c ≠ '-' ∧ c ≠ 'i' ∧ c ≠ 'n' ∧ c ≠ 's' := by
  have hm := digit_mem_enum c h
  fin_cases hm <;> decide

theorem dropWhile_eq_self_of_all {α : Type} (p : α → Bool) (l : List α)
    (h : ∀ c ∈ l, p c = false) : l.dropWhile p = l := by
  cases l with
  | nil => rfl
  | cons c rest => simp [List.dropWhile, h c (List.mem_cons_self c rest)]

theorem pyStrip_eq_self (l : List Char) (h : ∀ c ∈ l, pyIsWs c = false) :
    pyStrip l = l := by
  have h1 : pyLstrip l = l := dropWhile_eq_self_of_all _ _ h
  unfold pyStrip pyRstrip
  rw [h1, dropWhile_eq_self_of_all _ _ (fun c hc => h c (List.mem_reverse.mp hc)),
    List.reverse_reverse]

theorem dropWhile_append_of_head {α : Type} (p : α → Bool) (as bs : List α)
    (hb : ∀ c, bs.head? = some c → p c = false) :
    (as ++ bs).dropWhile p = as.dropWhile p ++ bs := by
  induction as with
  | nil =>
    simp only [List.nil_append, List.dropWhile_nil]
    cases bs with
    | nil => rfl
    | cons b t => simp [List.dropWhile, hb b rfl]
  | cons a as ih =>
    cases hp : p a with
    | true => simpa [List.dropWhile, hp] using ih
    | false => simp [List.dropWhile, hp]

theorem pyRstripDot_append (xs ys : List Char) (z : Char)
    (hz : xs.getLast? = some z) (hzd : (z == '.') = false) :
    pyRstripDot (xs ++ ys) = xs ++ pyRstripDot ys := by
  unfold pyRstripDot
  rw [List.reverse_append,
    dropWhile_append_of_head _ _ _ (fun c hc => by
      rw [List.head?_reverse, hz] at hc
      cases hc
      exact hzd),
    List.reverse_append, List.reverse_reverse]

theorem takeWhile_eq_self_of_all {α : Type} (p : α → Bool) (l : List α)
    (h : ∀ c ∈ l, p c = true) : l.takeWhile p = l := by
  induction l with
  | nil => rfl
  | cons c rest ih =>
    simp [List.takeWhile, h c (List.mem_cons_self c rest),
      ih fun x hx => h x (List.mem_cons_of_mem c hx)]

theorem takeWhile_append_stop {α : Type} (p : α → Bool) (xs : List α) (y : α) (ys : List α)
    (hxs : ∀ c ∈ xs, p c = true) (hy : p y = false) :
    (xs ++ y :: ys).takeWhile p = xs := by
  induction xs with
  | nil => simp [List.takeWhile, hy]
  | cons c rest ih =>
    simp [List.takeWhile, hxs c (List.mem_cons_self c rest),
      ih fun x hx => hxs x (List.mem_cons_of_mem c hx)]

theorem digitsToNat_from (l : List Char) (init : Nat) :
    l.foldl (fun a c => a * 10 + digitVal c) init =
      init * 10 ^ l.length + digitsToNat l := by
  induction l generalizing init with
  | nil => simp [digitsToNat]
  | cons c rest ih =>
    have h1 : digitsToNat (c :: rest) = digitVal c * 10 ^ rest.length + digitsToNat rest := by
      have h0 : digitsToNat (c :: rest) =
          List.foldl (fun a c => a * 10 + digitVal c) (0 * 10 + digitVal c) rest := rfl
      rw [h0, ih (0 * 10 + digitVal c)]
      simp
    rw [List.foldl_cons, ih (init * 10 + digitVal c), h1, List.length_cons, pow_succ]
    ring

theorem digitsToNat_append (xs ys : List Char) :
    digitsToNat (xs ++ ys) = digitsToNat xs * 10 ^ ys.length + digitsToNat ys := by
  unfold digitsToNat
  rw [List.foldl_append]
  exact digitsToNat_from ys _

theorem digitsToNat_pair (a b : Char) :
    digitsToNat [a, b] = digitVal a * 10 + digitVal b := by
  simp [digitsToNat, digitVal]

/-- The optional-sign component does nothing on a head that is no sign. -/
theorem parseSign_no_sign (l : List Char)
    (h : ∀ c, l.head? = some c → c ≠ '+' ∧ c ≠ '-') : parseSign l = (false, l) := by
  cases l with
  | nil => rfl
  | cons c rest =>
    have hc := h c rfl
    simp [parseSign, hc.1, hc.2]

/-- Decimal construction on `digits.digits` input: the exact value, no
exponent, no specials. -/
theorem pyDecimal_int_frac (ints fracs : List Char)
    (hi : ∀ c ∈ ints, c.isDigit = true) (hf : ∀ c ∈ fracs, c.isDigit = true)
    (hne : fracs ≠ []) :
    pyDecimalOfChars (ints ++ '.' :: fracs) =
      some (.num (digitsToNat (ints ++ fracs) : Int) (-(fracs.length : Int))) := by
  have hnw : ∀ c ∈ ints ++ '.' :: fracs, pyIsWs c = false := by
    intro c hc
    rcases List.mem_append.mp hc with h1 | h2
    · exact (digit_facts c (hi c h1)).2.1
    · rcases List.mem_cons.mp h2 with rfl | h3
      · decide
      · exact (digit_facts c (hf c h3)).2.1
  have hstrip : pyStrip (ints ++ '.' :: fracs) = ints ++ '.' :: fracs :=
    pyStrip_eq_self _ hnw
  have hund : pyDropChar '_' (ints ++ '.' :: fracs) = ints ++ '.' :: fracs := by
    unfold pyDropChar
    rw [List.filter_eq_self]
    intro c hc
    rcases List.mem_append.mp hc with h1 | h2
    · simpa using (digit_facts c (hi c h1)).2.2.2.2.1
    · rcases List.mem_cons.mp h2 with rfl | h3
      · decide
      · simpa using (digit_facts c (hf c h3)).2.2.2.2.1
  obtain ⟨c0, rest0, hl, hc0⟩ :
      ∃ c0 rest0, ints ++ '.' :: fracs = c0 :: rest0 ∧
        (c0 ≠ '+' ∧ c0 ≠ '-' ∧ asciiLower c0 ≠ 'i' ∧ asciiLower c0 ≠ 'n' ∧
          asciiLower c0 ≠ 's') := by
    cases ints with
    | nil => exact ⟨'.', fracs, rfl, by decide, by decide, by decide, by decide, by decide⟩
    | cons a t =>
      have hfacts := digit_facts a (hi a (List.mem_cons_self a t))
      refine ⟨a, t ++ '.' :: fracs, rfl, hfacts.2.2.2.2.2.1, hfacts.2.2.2.2.2.2.1, ?_, ?_, ?_⟩
      · rw [hfacts.1]; exact hfacts.2.2.2.2.2.2.2.1
      · rw [hfacts.1]; exact hfacts.2.2.2.2.2.2.2.2.1
      · rw [hfacts.1]; exact hfacts.2.2.2.2.2.2.2.2.2
  have hsign : parseSign (ints ++ '.' :: fracs) = (false, ints ++ '.' :: fracs) := by
    apply parseSign_no_sign
    intro c hc
    rw [hl, List.head?_cons] at hc
    injection hc with hc
    subst hc
    exact ⟨hc0.1, hc0.2.1⟩
  have hTW : (ints ++ '.' :: fracs).takeWhile (·.isDigit) = ints :=
    takeWhile_append_stop _ _ _ _ hi (by decide)
  have hTW2 : fracs.takeWhile (·.isDigit) = fracs := takeWhile_eq_self_of_all _ _ hf
  have hDR : (ints ++ '.' :: fracs).drop ints.length = '.' :: fracs := List.drop_left ints _
  have hcoeff : parseCoefficient (ints ++ '.' :: fracs) =
      some ((digitsToNat (ints ++ fracs), -(fracs.length : Int)), []) := by
    simp only [parseCoefficient, hTW, hDR, hTW2, List.drop_length]
    rw [if_pos trivial,
      if_neg (by
        intro hcon
        exact hne (by simpa using hcon.2))]
  have h_inf : ¬(((ints ++ '.' :: fracs).map asciiLower) = "inf".data ∨
      ((ints ++ '.' :: fracs).map asciiLower) = "infinity".data) := by
    rw [hl]
    intro h4
    rcases h4 with h4 | h4 <;>
    · have h5 := congrArg List.head? h4
      simp at h5
      exact hc0.2.2.1 h5
  have h_nan : ¬(pyStartsWith "nan".data ((ints ++ '.' :: fracs).map asciiLower) ∧
      ((((ints ++ '.' :: fracs).map asciiLower).drop 3).all (·.isDigit))) := by
    rw [hl]
    intro h4
    have h5 : "nan".data <+: (c0 :: rest0).map asciiLower :=
      List.isPrefixOf_iff_prefix.mp h4.1
    rcases h5 with ⟨t, ht⟩
    have h6 := congrArg List.head? ht
    simp at h6
    exact hc0.2.2.2.1 h6.symm
  have h_snan : ¬(pyStartsWith "snan".data ((ints ++ '.' :: fracs).map asciiLower) ∧
      ((((ints ++ '.' :: fracs).map asciiLower).drop 4).all (·.isDigit))) := by
    rw [hl]
    intro h4
    have h5 : "snan".data <+: (c0 :: rest0).map asciiLower :=
      List.isPrefixOf_iff_prefix.mp h4.1
    rcases h5 with ⟨t, ht⟩
    have h6 := congrArg List.head? ht
    simp at h6
    exact hc0.2.2.2.2 h6.symm
  simp only [pyDecimalOfChars, hstrip, hund, hsign, hcoeff]
  rw [if_neg h_inf, if_neg h_nan, if_neg h_snan]
  simp

theorem digitChar_isDigit : ∀ d : Fin 10, (digitChar d).isDigit = true := by decide

theorem digitVal_digitChar : ∀ d : Fin 10, digitVal (digitChar d) = d.val := by decide

theorem digitChar_ne_comma : ∀ d : Fin 10, digitChar d ≠ ',' := by decide

theorem digitChar_ne_dot : ∀ d : Fin 10, digitChar d ≠ '.' := by decide

theorem digitChar_ne_space : ∀ d : Fin 10, digitChar d ≠ ' ' := by decide

theorem digitChar_not_ws : ∀ d : Fin 10, pyIsWs (digitChar d) = false := by decide

theorem digitsToNat_map_digitChar (ds : List (Fin 10)) :
    digitsToNat (ds.map digitChar) = finDigitsToNat ds := by
  unfold digitsToNat finDigitsToNat
  rw [List.foldl_map]
  have h : (fun (a : Nat) (d : Fin 10) => a * 10 + digitVal (digitChar d)) =
      fun (a : Nat) (d : Fin 10) => a * 10 + d.val := by
    funext a d
    rw [digitVal_digitChar]
  rw [h]

/-- Every character of a rendered amount, and whether it is whitespace or a
space: none are. -/
theorem usRender_not_ws (a : AmountShape) :
    ∀ c ∈ usRenderChars a, pyIsWs c = false ∧ c ≠ ' ' := by
  intro c hc
  unfold usRenderChars at hc
  rcases List.mem_append.mp hc with h1 | h2
  · rcases List.mem_append.mp h1 with h3 | h4
    · obtain ⟨d, -, rfl⟩ := List.mem_map.mp h3
      exact ⟨digitChar_not_ws d, digitChar_ne_space d⟩
    · obtain ⟨g, -, hm⟩ := List.mem_flatMap.mp h4
      rcases List.mem_cons.mp hm with rfl | h5
      · exact ⟨by decide, by decide⟩
      · unfold groupChars at h5
        fin_cases h5 <;> exact ⟨digitChar_not_ws _, digitChar_ne_space _⟩
  · rcases List.mem_cons.mp h2 with rfl | h5
    · exact ⟨by decide, by decide⟩
    · fin_cases h5 <;> exact ⟨digitChar_not_ws _, digitChar_ne_space _⟩

theorem euRender_not_ws (a : AmountShape) :
    ∀ c ∈ euRenderChars a, pyIsWs c = false ∧ c ≠ ' ' := by
  intro c hc
  unfold euRenderChars at hc
  rcases List.mem_append.mp hc with h1 | h2
  · rcases List.mem_append.mp h1 with h3 | h4
    · obtain ⟨d, -, rfl⟩ := List.mem_map.mp h3
      exact ⟨digitChar_not_ws d, digitChar_ne_space d⟩
    · obtain ⟨g, -, hm⟩ := List.mem_flatMap.mp h4
      rcases List.mem_cons.mp hm with rfl | h5
      · exact ⟨by decide, by decide⟩
      · unfold groupChars at h5
        fin_cases h5 <;> exact ⟨digitChar_not_ws _, digitChar_ne_space _⟩
  · rcases List.mem_cons.mp h2 with rfl | h5
    · exact ⟨by decide, by decide⟩
    · fin_cases h5 <;> exact ⟨digitChar_not_ws _, digitChar_ne_space _⟩

theorem filter_map_digitChar (p : Char → Bool) (hp : ∀ d : Fin 10, p (digitChar d) = true)
    (ds : List (Fin 10)) : (ds.map digitChar).filter p = ds.map digitChar := by
  rw [List.filter_eq_self]
  intro c hc
  obtain ⟨d, -, rfl⟩ := List.mem_map.mp hc
  exact hp d

theorem map_id_of_all {α : Type} (f : α → α) (l : List α) (h : ∀ c ∈ l, f c = c) :
    l.map f = l := by
  induction l with
  | nil => rfl
  | cons c rest ih =>
    rw [List.map_cons, h c (List.mem_cons_self c rest),
      ih fun x hx => h x (List.mem_cons_of_mem c hx)]

theorem groupChars_eq_map (g : Fin 10 × Fin 10 × Fin 10) :
    groupChars g = [g.1, g.2.1, g.2.2].map digitChar := rfl

theorem us_filter_comma (a : AmountShape) :
    pyDropChar ',' (usRenderChars a) =
      (amountIntDigits a).map digitChar ++ '.' :: [digitChar a.f1, digitChar a.f2] := by
  unfold pyDropChar usRenderChars
  rw [List.filter_append, List.filter_append]
  have h1 : (a.lead.map digitChar).filter (· ≠ ',') = a.lead.map digitChar :=
    filter_map_digitChar _ (fun d => by simpa using digitChar_ne_comma d) _
  have h2 : (a.groups.flatMap fun g => ',' :: groupChars g).filter (· ≠ ',') =
      a.groups.flatMap fun g => groupChars g := by
    induction a.groups with
    | nil => rfl
    | cons g t ih =>
      rw [List.flatMap_cons, List.flatMap_cons, List.filter_append, ih, List.filter_cons]
      simp only [decide_eq_true_eq]
      rw [if_neg (by simp), groupChars_eq_map,
        filter_map_digitChar _ (fun d => by simpa using digitChar_ne_comma d)]
  have h3 : ('.' :: [digitChar a.f1, digitChar a.f2]).filter (· ≠ ',') =
      '.' :: [digitChar a.f1, digitChar a.f2] := by
    rw [List.filter_eq_self]
    intro c hc
    fin_cases hc
    · simp
    · simpa using digitChar_ne_comma a.f1
    · simpa using digitChar_ne_comma a.f2
  rw [h1, h2, h3]
  unfold amountIntDigits
  rw [List.map_append, List.map_flatMap]
  rfl

theorem eu_normalize (a : AmountShape) :
    pyMapChar ',' '.' (pyDropChar '.' (euRenderChars a)) =
      (amountIntDigits a).map digitChar ++ '.' :: [digitChar a.f1, digitChar a.f2] := by
  unfold pyDropChar euRenderChars
  rw [List.filter_append, List.filter_append]
  have h1 : (a.lead.map digitChar).filter (· ≠ '.') = a.lead.map digitChar :=
    filter_map_digitChar _ (fun d => by simpa using digitChar_ne_dot d) _
  have h2 : (a.groups.flatMap fun g => '.' :: groupChars g).filter (· ≠ '.') =
      a.groups.flatMap fun g => groupChars g := by
    induction a.groups with
    | nil => rfl
    | cons g t ih =>
      rw [List.flatMap_cons, List.flatMap_cons, List.filter_append, ih, List.filter_cons]
      simp only [decide_eq_true_eq]
      rw [if_neg (by simp), groupChars_eq_map,
        filter_map_digitChar _ (fun d => by simpa using digitChar_ne_dot d)]
  have h3 : (',' :: [digitChar a.f1, digitChar a.f2]).filter (· ≠ '.') =
      ',' :: [digitChar a.f1, digitChar a.f2] := by
    rw [List.filter_eq_self]
    intro c hc
    fin_cases hc
    · simp
    · simpa using digitChar_ne_dot a.f1
    · simpa using digitChar_ne_dot a.f2
  rw [h1, h2, h3]
  unfold pyMapChar
  rw [List.map_append, List.map_append]
  have h4 : ∀ ds : List (Fin 10), (ds.map digitChar).map
      (fun x => if x = ',' then '.' else x) = ds.map digitChar := by
    intro ds
    apply map_id_of_all
    intro c hc
    obtain ⟨d, -, rfl⟩ := List.mem_map.mp hc
    rw [if_neg (digitChar_ne_comma d)]
  have h5 : (a.groups.flatMap fun g => groupChars g).map
      (fun x => if x = ',' then '.' else x) = a.groups.flatMap fun g => groupChars g := by
    apply map_id_of_all
    intro c hc
    obtain ⟨g, -, hm⟩ := List.mem_flatMap.mp hc
    rw [groupChars_eq_map] at hm
    obtain ⟨d, -, rfl⟩ := List.mem_map.mp hm
    rw [if_neg (digitChar_ne_comma d)]
  rw [h4, h5]
  have h6 : (',' :: [digitChar a.f1, digitChar a.f2]).map
      (fun x => if x = ',' then '.' else x) = '.' :: [digitChar a.f1, digitChar a.f2] := by
    rw [List.map_cons, if_pos rfl, List.map_cons, List.map_cons, List.map_nil,
      if_neg (digitChar_ne_comma a.f1), if_neg (digitChar_ne_comma a.f2)]
  rw [h6]
  unfold amountIntDigits
  rw [List.map_append, List.map_flatMap]
  rfl

theorem usRender_ne_nil (a : AmountShape) : usRenderChars a ≠ [] := by
  unfold usRenderChars
  intro h
  have := congrArg List.length h
  simp at this

theorem euRender_ne_nil (a : AmountShape) : euRenderChars a ≠ [] := by
  unfold euRenderChars
  intro h
  have := congrArg List.length h
  simp at this

theorem dot_mem_usRender (a : AmountShape) : '.' ∈ usRenderChars a := by
  unfold usRenderChars
  exact List.mem_append.mpr (Or.inr (List.mem_cons_self _ _))

theorem comma_mem_euRender (a : AmountShape) : ',' ∈ euRenderChars a := by
  unfold euRenderChars
  exact List.mem_append.mpr (Or.inr (List.mem_cons_self _ _))

theorem amount_digits_value (a : AmountShape) :
    digitsToNat ((amountIntDigits a).map digitChar ++
        [digitChar a.f1, digitChar a.f2]) = amountCoeff a := by
  rw [digitsToNat_append, digitsToNat_map_digitChar, digitsToNat_pair,
    digitVal_digitChar, digitVal_digitChar]
  unfold amountCoeff
  norm_num
  ring

theorem parse_amount_us_render (a : AmountShape) :
    parse_amount_us ⟨usRenderChars a⟩ = some (.num (amountCoeff a) (-2)) := by
  have hnw := usRender_not_ws a
  have hstrip : pyStrip (usRenderChars a) = usRenderChars a :=
    pyStrip_eq_self _ fun c hc => (hnw c hc).1
  have hsp : pyDropChar ' ' (usRenderChars a) = usRenderChars a := by
    unfold pyDropChar
    rw [List.filter_eq_self]
    intro c hc
    simpa using (hnw c hc).2
  have hne := usRender_ne_nil a
  unfold parse_amount_us
  rw [if_neg (by
    show ¬((usRenderChars a).isEmpty ∨ (pyStrip (usRenderChars a)).isEmpty)
    rw [hstrip]
    simp [hne])]
  rw [hstrip, hsp]
  rw [if_neg (by
    intro h
    rcases h with h | h
    · rw [List.isEmpty_iff] at h
      exact hne h
    · have hd := dot_mem_usRender a
      rw [h] at hd
      simp at hd)]
  rw [us_filter_comma]
  rw [pyDecimal_int_frac _ _
    (fun c hc => by
      obtain ⟨d, -, rfl⟩ := List.mem_map.mp hc
      exact digitChar_isDigit d)
    (fun c hc => by
      fin_cases hc <;> exact digitChar_isDigit _)
    (by simp)]
  rw [amount_digits_value]
  rfl

theorem parse_amount_eu_render (a : AmountShape) :
    parse_amount_eu ⟨euRenderChars a⟩ = some (.num (amountCoeff a) (-2)) := by
  have hnw := euRender_not_ws a
  have hstrip : pyStrip (euRenderChars a) = euRenderChars a :=
    pyStrip_eq_self _ fun c hc => (hnw c hc).1
  have hsp : pyDropChar ' ' (euRenderChars a) = euRenderChars a := by
    unfold pyDropChar
    rw [List.filter_eq_self]
    intro c hc
    simpa using (hnw c hc).2
  have hne := euRender_ne_nil a
  unfold parse_amount_eu
  rw [if_neg (by
    show ¬((euRenderChars a).isEmpty ∨ (pyStrip (euRenderChars a)).isEmpty)
    rw [hstrip]
    simp [hne])]
  rw [hstrip, hsp]
  rw [if_neg (by
    intro h
    rcases h with h | h
    · rw [List.isEmpty_iff] at h
      exact hne h
    · have hd := comma_mem_euRender a
      rw [h] at hd
      simp at hd)]
  rw [eu_normalize]
  rw [pyDecimal_int_frac _ _
    (fun c hc => by
      obtain ⟨d, -, rfl⟩ := List.mem_map.mp hc
      exact digitChar_isDigit d)
    (fun c hc => by
      fin_cases hc <;> exact digitChar_isDigit _)
    (by simp)]
  rw [amount_digits_value]
  rfl

/-- Whitespace-only input gives "no value" from both amount normalizers. -/
theorem parse_amount_ws_none (s : String) (h : pyStrip s.data = []) :
    parse_amount_eu s = none ∧ parse_amount_us s = none := by
  constructor
  · unfold parse_amount_eu
    rw [if_pos (Or.inr (by simp [h]))]
  · unfold parse_amount_us
    rw [if_pos (Or.inr (by simp [h]))]

theorem filter_dropWhile_space (l : List Char) :
    (l.dropWhile pyIsWs).filter (· ≠ ' ') = (l.filter (· ≠ ' ')).dropWhile pyIsWs := by
  induction l with
  | nil => rfl
  | cons c rest ih =>
    by_cases hsp : c = ' '
    · subst hsp
      have hw : pyIsWs ' ' = true := by decide
      simp [List.dropWhile_cons, List.filter_cons, hw]
      simpa using ih
    · cases hw : pyIsWs c with
      | true =>
        simp [List.dropWhile_cons, List.filter_cons, hw, hsp]
        simpa using ih
      | false => simp [List.dropWhile_cons, List.filter_cons, hw, hsp]

theorem filter_strip_space (l : List Char) :
    pyStrip (l.filter (· ≠ ' ')) = (pyStrip l).filter (· ≠ ' ') := by
  unfold pyStrip pyLstrip pyRstrip
  rw [← filter_dropWhile_space, ← List.filter_reverse, ← filter_dropWhile_space,
    ← List.filter_reverse]

theorem filter_space_idem (l : List Char) :
    (l.filter (· ≠ ' ')).filter (· ≠ ' ') = l.filter (· ≠ ' ') := by
  rw [List.filter_eq_self]
  intro c hc
  simpa using List.of_mem_filter hc

theorem dropWhile_head_false {α : Type} (p : α → Bool) (l : List α) (c : α) (r : List α)
    (h : l.dropWhile p = c :: r) : p c = false := by
  induction l with
  | nil => simp at h
  | cons a t ih =>
    cases hp : p a with
    | true =>
      rw [List.dropWhile_cons_of_pos hp] at h
      exact ih h
    | false =>
      rw [List.dropWhile_cons_of_neg (by simp [hp])] at h
      cases h
      exact hp

/-- Right-stripping only removes a suffix: the result is a prefix. -/
theorem pyRstrip_isPre (y : List Char) : pyRstrip y <+: y := by
  unfold pyRstrip
  have h : y.reverse.dropWhile pyIsWs <:+ y.reverse := List.dropWhile_suffix _
  have h2 := List.reverse_prefix.mpr h
  rwa [List.reverse_reverse] at h2

/-- A non-empty stripped string starts with a non-whitespace character. -/
theorem pyStrip_head (l : List Char) :
    pyStrip l = [] ∨ ∃ c r, pyStrip l = c :: r ∧ pyIsWs c = false := by
  cases hm : pyLstrip l with
  | nil =>
    left
    unfold pyStrip
    rw [hm]
    rfl
  | cons c r =>
    have hc : pyIsWs c = false := dropWhile_head_false _ _ _ _ hm
    unfold pyStrip
    rw [hm]
    cases hr : pyRstrip (c :: r) with
    | nil => exact Or.inl rfl
    | cons x xs =>
      right
      refine ⟨x, xs, rfl, ?_⟩
      have hpre := pyRstrip_isPre (c :: r)
      rw [hr] at hpre
      obtain ⟨t, ht⟩ := hpre
      have := congrArg List.head? ht
      simp at this
      rw [this]
      exact hc

/-- Input that reduces to a lone dash gives "no value" from both. -/
theorem parse_amount_dash_none (s : String)
    (h : pyDropChar ' ' (pyStrip s.data) = ['-']) (hs : ¬(pyStrip s.data).isEmpty) :
    parse_amount_eu s = none ∧ parse_amount_us s = none := by
  have hne : ¬s.data.isEmpty := by
    intro h0
    rw [List.isEmpty_iff] at h0
    rw [h0] at hs
    simp [pyStrip, pyLstrip, pyRstrip] at hs
  constructor
  · unfold parse_amount_eu
    rw [if_neg (by simp [hne, hs])]
    rw [if_pos (Or.inr h)]
  · unfold parse_amount_us
    rw [if_neg (by simp [hne, hs])]
    rw [if_pos (Or.inr h)]

/-- Removing all spaces from the input does not change either normalizer's
result (the code's own `replace(" ", "")` already does it). -/
theorem parse_amount_space_insensitive (s : String) :
    parse_amount_eu ⟨s.data.filter (· ≠ ' ')⟩ = parse_amount_eu s ∧
    parse_amount_us ⟨s.data.filter (· ≠ ' ')⟩ = parse_amount_us s := by
  by_cases hws : pyStrip s.data = []
  · have hf : pyStrip (s.data.filter (· ≠ ' ')) = [] := by
      rw [filter_strip_space, hws]
      rfl
    have h1 := parse_amount_ws_none ⟨s.data.filter (· ≠ ' ')⟩ hf
    have h2 := parse_amount_ws_none s hws
    exact ⟨h1.1.trans h2.1.symm, h1.2.trans h2.2.symm⟩
  · rcases pyStrip_head s.data with h | ⟨c, r, hcr, hcw⟩
    · exact absurd h hws
    have hcsp : c ≠ ' ' := by
      intro h
      subst h
      simp [pyIsWs] at hcw
    have hT : pyDropChar ' ' (pyStrip (s.data.filter (· ≠ ' '))) =
        pyDropChar ' ' (pyStrip s.data) := by
      unfold pyDropChar
      rw [filter_strip_space]
      exact filter_space_idem _
    have hfne : ¬(pyStrip (s.data.filter (· ≠ ' '))).isEmpty = true := by
      rw [filter_strip_space, hcr]
      simp [hcsp]
    have hsne : ¬(pyStrip s.data).isEmpty = true := by
      rw [hcr]
      simp
    have hfne2 : ¬(s.data.filter (· ≠ ' ')).isEmpty = true := by
      intro h0
      rw [List.isEmpty_iff] at h0
      rw [h0] at hfne
      exact hfne (by decide)
    have hsne2 : ¬s.data.isEmpty = true := by
      intro h0
      rw [List.isEmpty_iff] at h0
      rw [h0] at hsne
      exact hsne (by decide)
    have hdata : (String.mk (s.data.filter (· ≠ ' '))).data = s.data.filter (· ≠ ' ') := rfl
    have hL : ¬((s.data.filter (· ≠ ' ')).isEmpty = true ∨
        (pyStrip (s.data.filter (· ≠ ' '))).isEmpty = true) := by
      intro h
      rcases h with h | h
      · exact hfne2 h
      · exact hfne h
    have hR : ¬(s.data.isEmpty = true ∨ (pyStrip s.data).isEmpty = true) := by
      intro h
      rcases h with h | h
      · exact hsne2 h
      · exact hsne h
    constructor
    · unfold parse_amount_eu
      rw [hdata, if_neg hL, if_neg hR, hT]
    · unfold parse_amount_us
      rw [hdata, if_neg hL, if_neg hR, hT]

/-! ## Claim C3 (corrected) -/

/-- C3 counterexample: the claim "for any other (malformed) input [each
normalizer] signals a parse failure, never zero and never a numeric value"
is false: `parse_amount_eu "1.2.3"` returns the numeric value 123 although
`"1.2.3"` does not conform to the European grammar and is neither empty nor
a lone dash.  Also, internal whitespace other than the space character is
not stripped: `"1\t2,00"` fails while `"12,00"` parses. -/
theorem claim_C3_counterexample :
    parse_amount_eu "1.2.3" = some (.num 123 0) ∧
    euConforms "1.2.3" = false ∧
    ("1.2.3" : String) ≠ "" ∧ ("1.2.3" : String) ≠ "-" ∧
    parse_amount_eu "1\t2,00" = none ∧
    parse_amount_eu "12,00" = some (.num 1200 (-2)) := by
  decide

/-- C3 as amended: each amount normalizer strips internal spaces (U+0020;
other internal whitespace is not stripped); returns "no value" when the
input is empty or whitespace-only, or reduces to a lone dash after space
removal; returns the exact decimal value for every string conforming to its
grammar (`parse_amount_eu "1.234,56" = 1234.56`,
`parse_amount_us "1,234.56" = 1234.56`); for malformed input it returns
either "no value" or the decimal value of the input after separator
normalization (e.g. `parse_amount_eu "1.2.3" = 123`) — it never raises and
the only zero results come from inputs whose digits denote zero. -/
theorem claim_C3 :
    (∀ a : AmountShape, 1 ≤ a.lead.length → a.lead.length ≤ 3 →
      parse_amount_eu ⟨euRenderChars a⟩ = some (.num (amountCoeff a) (-2)) ∧
      parse_amount_us ⟨usRenderChars a⟩ = some (.num (amountCoeff a) (-2))) ∧
    (∀ s : String, pyStrip s.data = [] →
      parse_amount_eu s = none ∧ parse_amount_us s = none) ∧
    (∀ s : String, ¬(pyStrip s.data).isEmpty →
      pyDropChar ' ' (pyStrip s.data) = ['-'] →
      parse_amount_eu s = none ∧ parse_amount_us s = none) ∧
    (∀ s : String,
      parse_amount_eu ⟨s.data.filter (· ≠ ' ')⟩ = parse_amount_eu s ∧
      parse_amount_us ⟨s.data.filter (· ≠ ' ')⟩ = parse_amount_us s) ∧
    parse_amount_eu "1.2.3" = some (.num 123 0) := by
  refine ⟨?_, ?_, ?_, ?_, by decide⟩
  · intro a _ _
    exact ⟨parse_amount_eu_render a, parse_amount_us_render a⟩
  · intro s h
    exact parse_amount_ws_none s h
  · intro s h1 h2
    exact parse_amount_dash_none s h2 h1
  · intro s
    exact parse_amount_space_insensitive s

/-- C3 witness: the amended claim applied at concrete inputs. -/
theorem claim_C3_witness :
    parse_amount_eu "1.234,56" = some (.num 123456 (-2)) ∧
    parse_amount_us "1,234.56" = some (.num 123456 (-2)) ∧
    parse_amount_eu "   " = none ∧
    parse_amount_us " - " = none := by
  have h := claim_C3
  refine ⟨?_, ?_, ?_, ?_⟩
  · have h1 := (h.1 ⟨[1], [(2, 3, 4)], 5, 6⟩ (by decide) (by decide)).1
    have he : (⟨euRenderChars ⟨[1], [(2, 3, 4)], 5, 6⟩⟩ : String) = "1.234,56" := by decide
    have hv : amountCoeff ⟨[1], [(2, 3, 4)], 5, 6⟩ = 123456 := by decide
    rw [he, hv] at h1
    exact h1
  · have h1 := (h.1 ⟨[1], [(2, 3, 4)], 5, 6⟩ (by decide) (by decide)).2
    have he : (⟨usRenderChars ⟨[1], [(2, 3, 4)], 5, 6⟩⟩ : String) = "1,234.56" := by decide
    have hv : amountCoeff ⟨[1], [(2, 3, 4)], 5, 6⟩ = 123456 := by decide
    rw [he, hv] at h1
    exact h1
  · exact (h.2.1 "   " (by decide)).1
  · exact (h.2.2.1 " - " (by decide) (by decide)).2

/-! ## Claim C5 (confirmed) -/

/-- C5: for every bank identifier absent from the registry and every
document, the orchestrator returns the typed UnsupportedBank failure (the
raised `ValueError`), not a null result and not a default adapter's output,
and no adapter is instantiated or invoked: the result holds for every
choice of the nine adapter parse functions, and the registry lookup itself
returns `None`. -/
theorem claim_C5 {Doc : Type} (impl : Fin 9 → Doc → ParsedStatement)
    (bank_code : String) (doc : Doc) (h : bank_code ∉ registryCodes) :
    parse_file impl doc bank_code =
      .unsupportedBank ("No parser registered for bank code: " ++ bank_code) ∧
    getParser impl bank_code = none := by
  have hfind : ((BANK_PARSERS impl).reverse.find? (fun e => e.1 == bank_code)) = none := by
    rw [List.find?_eq_none]
    intro x hx
    rw [List.mem_reverse] at hx
    have hx1 : x.1 ∈ registryCodes := by
      unfold BANK_PARSERS at hx
      unfold registryCodes
      fin_cases hx <;> simp
    intro hbeq
    rw [beq_iff_eq] at hbeq
    exact h (hbeq ▸ hx1)
  have hg : getParser impl bank_code = none := by
    unfold getParser dictGet
    rw [hfind]
    rfl
  constructor
  · unfold parse_file
    rw [hg]
  · exact hg

/-- C5 witness: the unknown code "999" with a concrete adapter family. -/
theorem claim_C5_witness :
    "999" ∉ registryCodes ∧
    parse_file (fun _ (_ : Unit) => {}) () "999" =
      .unsupportedBank "No parser registered for bank code: 999" :=
  ⟨by decide, (claim_C5 (fun _ _ => {}) "999" () (by decide)).1⟩

/-! ## Claim C6 (confirmed) -/

/-- C6: two invocations of the orchestrator with identical bank identifier
and document content produce identical results, for any ambient state
(wall clock, environment) each run observes: the embedded engine reads
none of it. -/
theorem claim_C6 {Doc : Type} (a1 a2 : Ambient) (impl : Fin 9 → Doc → ParsedStatement)
    (d1 d2 : Doc) (c1 c2 : String) (hd : d1 = d2) (hc : c1 = c2) :
    parse_file_run a1 impl d1 c1 = parse_file_run a2 impl d2 c2 := by
  subst hd
  subst hc
  rfl

/-- C6 witness: a concrete double run under different ambient states. -/
theorem claim_C6_witness :
    parse_file_run ⟨0, [], []⟩ (fun _ (_ : Unit) => {}) () "575" =
      parse_file_run ⟨1, [("HOME", "/root")], ["other"]⟩ (fun _ _ => {}) () "575" :=
  claim_C6 _ _ _ _ _ _ _ rfl rfl

/-! ## Claim C4 (corrected) -/

/-- Any date a normalizer returns was validated by the `date` constructor. -/
theorem parse_date_dmy_valid (s : String) (dt : PyDate) (h : parse_date_dmy s = some dt) :
    validYMD dt.year dt.month dt.day = true := by
  unfold parse_date_dmy at h
  dsimp only at h
  split at h
  · cases h
  · split at h
    · unfold pyDate? at h
      split at h
      · cases h
        assumption
      · cases h
    · cases h

theorem parse_date_ymd_valid (s : String) (dt : PyDate) (h : parse_date_ymd s = some dt) :
    validYMD dt.year dt.month dt.day = true := by
  unfold parse_date_ymd at h
  dsimp only at h
  split at h
  · cases h
  · split at h
    · unfold pyDate? at h
      split at h
      · cases h
        assumption
      · cases h
    · cases h

theorem parse_date_dmy_slash_valid (s : String) (dt : PyDate)
    (h : parse_date_dmy_slash s = some dt) : validYMD dt.year dt.month dt.day = true := by
  unfold parse_date_dmy_slash at h
  split at h
  · cases h
  · split at h
    · unfold pyDate? at h
      split at h
      · cases h
        assumption
      · cases h
    · cases h

/-- C4 counterexample: the claim that a calendrically invalid token yields
"a typed failure distinct from 'no value'" is false: for all three
normalizers the invalid-calendar result is the very same `None` that empty
input produces (day 31 of April shown). -/
theorem claim_C4_counterexample :
    parse_date_dmy "31.04.2026" = none ∧ parse_date_dmy "" = none ∧
    parse_date_ymd "2026.04.31" = none ∧ parse_date_ymd "" = none ∧
    parse_date_dmy_slash "31/04/2026" = none ∧ parse_date_dmy_slash "" = none := by
  decide

/-- C4 as amended: each of the three date normalizers returns "no value"
(`None`) for empty input; a token matching the pattern but encoding an
invalid calendar date also yields `None` — the same value as "no value",
not a distinct typed failure — and never a clamped or wrapped date: every
date actually returned passed the `date` constructor's validation. -/
theorem claim_C4 :
    (parse_date_dmy "" = none ∧ parse_date_ymd "" = none ∧
      parse_date_dmy_slash "" = none) ∧
    (∀ (s : String) (d m y : Nat),
      matchD12D12D4 sepDotSlash (pyRstripDot (pyStrip s.data)) = some (d, m, y) →
      validYMD y m d = false → parse_date_dmy s = none) ∧
    (∀ (s : String) (y m d : Nat),
      matchD4D12D12 (pyRstripDot (pyStrip s.data)) = some (y, m, d) →
      validYMD y m d = false → parse_date_ymd s = none) ∧
    (∀ (s : String) (d m y : Nat),
      matchD12D12D4 sepSlash (pyStrip s.data) = some (d, m, y) →
      validYMD y m d = false → parse_date_dmy_slash s = none) ∧
    (∀ (s : String) (dt : PyDate), parse_date_dmy s = some dt →
      validYMD dt.year dt.month dt.day = true) ∧
    (∀ (s : String) (dt : PyDate), parse_date_ymd s = some dt →
      validYMD dt.year dt.month dt.day = true) ∧
    (∀ (s : String) (dt : PyDate), parse_date_dmy_slash s = some dt →
      validYMD dt.year dt.month dt.day = true) := by
  refine ⟨by decide, ?_, ?_, ?_, parse_date_dmy_valid, parse_date_ymd_valid,
    parse_date_dmy_slash_valid⟩
  · intro s d m y hm hv
    unfold parse_date_dmy
    dsimp only
    split
    · rfl
    · rw [hm]
      unfold pyDate?
      dsimp only
      rw [if_neg (by simp [hv])]
  · intro s y m d hm hv
    unfold parse_date_ymd
    dsimp only
    split
    · rfl
    · rw [hm]
      unfold pyDate?
      dsimp only
      rw [if_neg (by simp [hv])]
  · intro s d m y hm hv
    unfold parse_date_dmy_slash
    split
    · rfl
    · rw [hm]
      unfold pyDate?
      dsimp only
      rw [if_neg (by simp [hv])]

/-- C4 witness: the amended claim applied at concrete inputs. -/
theorem claim_C4_witness :
    parse_date_dmy "30.02.2026" = none ∧
    parse_date_ymd "2026.02.30" = none ∧
    parse_date_dmy_slash "32/01/2026" = none := by
  have h := claim_C4
  exact ⟨h.2.1 "30.02.2026" 30 2 2026 (by decide) (by decide),
    h.2.2.1 "2026.02.30" 2026 2 30 (by decide) (by decide),
    h.2.2.2.1 "32/01/2026" 32 1 2026 (by decide) (by decide)⟩

/-! ## Claim C10 (confirmed) -/

theorem sepSlash_sub (c : Char) (h : sepSlash c = true) : sepDotSlash c = true := by
  unfold sepSlash at h
  unfold sepDotSlash
  rw [h]
  simp

theorem sepDotSlash_not_digit (c : Char) (h : sepDotSlash c = true) : c.isDigit = false := by
  unfold sepDotSlash at h
  rcases Bool.or_eq_true_iff.mp h with h3 | h3 <;>
  · rw [beq_iff_eq] at h3
    subst h3
    decide

theorem sepSlash_not_digit (c : Char) (h : sepSlash c = true) : c.isDigit = false :=
  sepDotSlash_not_digit c (sepSlash_sub c h)

/-- A one-or-two-digit component that succeeds with the slash separator
succeeds identically with the dot-or-slash class. -/
theorem parseD12_slash_to_dot (l : List Char) (n : Nat) (r : List Char)
    (h : parseD12 sepSlash l = some (n, r)) : parseD12 sepDotSlash l = some (n, r) := by
  match l with
  | a :: b :: c :: rest =>
    unfold parseD12 at h ⊢
    dsimp only at h ⊢
    by_cases ha : a.isDigit = true
    · rw [if_pos ha] at h ⊢
      by_cases hb : b.isDigit = true
      · rw [if_pos hb] at h ⊢
        by_cases hc : sepSlash c = true
        · rw [if_pos hc] at h
          rw [if_pos (sepSlash_sub c hc)]
          exact h
        · rw [if_neg hc] at h
          cases h
      · rw [if_neg hb] at h ⊢
        by_cases hs : sepSlash b = true
        · rw [if_pos hs] at h
          rw [if_pos (sepSlash_sub b hs)]
          exact h
        · rw [if_neg hs] at h
          cases h
    · rw [if_neg ha] at h
      cases h
  | [a, b] =>
    unfold parseD12 at h ⊢
    dsimp only at h ⊢
    by_cases hab : a.isDigit = true ∧ sepSlash b = true
    · rw [if_pos hab] at h
      rw [if_pos ⟨hab.1, sepSlash_sub b hab.2⟩]
      exact h
    · rw [if_neg hab] at h
      cases h
  | [] => cases h
  | [a] => cases h

/-- A successful one-or-two-digit component consumed an explicit prefix and
replays on any continuation. -/
theorem parseD12_replay (sep : Char → Bool) (hsep : ∀ c, sep c = true → c.isDigit = false)
    (l : List Char) (n : Nat) (r : List Char)
    (h : parseD12 sep l = some (n, r)) :
    ∃ p, l = p ++ r ∧ ∀ r', parseD12 sep (p ++ r') = some (n, r') := by
  match l with
  | a :: b :: c :: rest =>
    unfold parseD12 at h
    dsimp only at h
    by_cases ha : a.isDigit = true
    · rw [if_pos ha] at h
      by_cases hb : b.isDigit = true
      · rw [if_pos hb] at h
        by_cases hc : sep c = true
        · rw [if_pos hc] at h
          cases h
          refine ⟨[a, b, c], rfl, ?_⟩
          intro r'
          cases r' with
          | nil =>
            show parseD12 sep [a, b, c] = _
            unfold parseD12
            dsimp only
            rw [if_pos ha, if_pos hb, if_pos hc]
          | cons x xs =>
            show parseD12 sep (a :: b :: c :: x :: xs) = _
            unfold parseD12
            dsimp only
            rw [if_pos ha, if_pos hb, if_pos hc]
        · rw [if_neg hc] at h
          cases h
      · rw [if_neg hb] at h
        by_cases hs : sep b = true
        · rw [if_pos hs] at h
          cases h
          refine ⟨[a, b], rfl, ?_⟩
          intro r'
          cases r' with
          | nil =>
            show parseD12 sep [a, b] = _
            unfold parseD12
            dsimp only
            rw [if_pos ⟨ha, hs⟩]
          | cons x xs =>
            show parseD12 sep (a :: b :: x :: xs) = _
            unfold parseD12
            dsimp only
            rw [if_pos ha, if_neg hb, if_pos hs]
        · rw [if_neg hs] at h
          cases h
    · rw [if_neg ha] at h
      cases h
  | [a, b] =>
    unfold parseD12 at h
    dsimp only at h
    by_cases hab : a.isDigit = true ∧ sep b = true
    · rw [if_pos hab] at h
      cases h
      refine ⟨[a, b], by simp, ?_⟩
      intro r'
      cases r' with
      | nil =>
        show parseD12 sep [a, b] = _
        unfold parseD12
        dsimp only
        rw [if_pos hab]
      | cons x xs =>
        show parseD12 sep (a :: b :: x :: xs) = _
        unfold parseD12
        dsimp only
        rw [if_pos hab.1, if_neg (by simp [hsep b hab.2]), if_pos hab.2]
    · rw [if_neg hab] at h
      cases h
  | [] => cases h
  | [a] => cases h

/-- A successful four-digit component consumed exactly four digits and
replays on any continuation (the trailing input is never inspected). -/
theorem parseD4_replay (l : List Char) (n : Nat) (r : List Char)
    (h : parseD4 l = some (n, r)) :
    ∃ a b c d, l = a :: b :: c :: d :: r ∧ d.isDigit = true ∧
      ∀ r', parseD4 (a :: b :: c :: d :: r') = some (n, r') := by
  match l with
  | a :: b :: c :: d :: rest =>
    unfold parseD4 at h
    dsimp only at h
    by_cases hx : (a.isDigit && b.isDigit && c.isDigit && d.isDigit) = true
    · rw [if_pos hx] at h
      cases h
      refine ⟨a, b, c, d, rfl, ?_, ?_⟩
      · simp only [Bool.and_eq_true] at hx
        exact hx.2
      · intro r'
        unfold parseD4
        dsimp only
        rw [if_pos hx]
    · rw [if_neg hx] at h
      cases h
  | [] => cases h
  | [a] => cases h
  | [a, b] => cases h
  | [a, b, c] => cases h

/-- The dot-separated day-month-year matcher subsumes the slash matcher,
even after the trailing-dot stripping the dotted normalizer performs. -/
theorem matchD12D12D4_slash_to_dot_rstrip (t : List Char) (d m y : Nat)
    (h : matchD12D12D4 sepSlash t = some (d, m, y)) :
    matchD12D12D4 sepDotSlash (pyRstripDot t) = some (d, m, y) := by
  unfold matchD12D12D4 at h
  cases h1 : parseD12 sepSlash t with
  | none =>
    rw [h1] at h
    cases h
  | some p1 =>
    obtain ⟨dv, r1⟩ := p1
    rw [h1] at h
    dsimp only at h
    cases h2 : parseD12 sepSlash r1 with
    | none =>
      rw [h2] at h
      cases h
    | some p2 =>
      obtain ⟨mv, r2⟩ := p2
      rw [h2] at h
      dsimp only at h
      cases h3 : parseD4 r2 with
      | none =>
        rw [h3] at h
        cases h
      | some p3 =>
        obtain ⟨yv, r3⟩ := p3
        rw [h3] at h
        dsimp only at h
        cases h
        obtain ⟨p1, ht1, hr1⟩ := parseD12_replay sepDotSlash sepDotSlash_not_digit t _ _
          (parseD12_slash_to_dot _ _ _ h1)
        obtain ⟨p2, ht2, hr2⟩ := parseD12_replay sepDotSlash sepDotSlash_not_digit r1 _ _
          (parseD12_slash_to_dot _ _ _ h2)
        obtain ⟨a, b, c, e, ht3, hd, hr3⟩ := parseD4_replay r2 _ _ h3
        have hT : t = (p1 ++ p2 ++ [a, b, c, e]) ++ r3 := by
          rw [ht1, ht2, ht3]
          simp
        have hlast : (p1 ++ p2 ++ [a, b, c, e]).getLast? = some e := by
          have : p1 ++ p2 ++ [a, b, c, e] = (p1 ++ p2 ++ [a, b, c]) ++ [e] := by simp
          rw [this, List.getLast?_concat]
        have hstrip : pyRstripDot t = (p1 ++ p2 ++ [a, b, c, e]) ++ pyRstripDot r3 := by
          rw [hT]
          exact pyRstripDot_append _ _ e hlast (by
            have := (digit_facts e hd).2.2.1
            simpa using this)
        unfold matchD12D12D4
        rw [hstrip]
        have e1 : (p1 ++ p2 ++ [a, b, c, e]) ++ pyRstripDot r3 =
            p1 ++ (p2 ++ (a :: b :: c :: e :: pyRstripDot r3)) := by
          simp
        rw [e1, hr1]
        dsimp only
        rw [hr2]
        dsimp only
        rw [hr3]

/-- C10: the dotted day-month-year normalizer subsumes the slash one, and
both ignore trailing characters after the matched token. -/
theorem claim_C10 :
    (∀ (s : String) (dt : PyDate), parse_date_dmy_slash s = some dt →
      parse_date_dmy s = some dt) ∧
    (∀ junk : List Char,
      matchD12D12D4 sepDotSlash
        ('1' :: '.' :: '2' :: '.' :: '2' :: '0' :: '2' :: '6' :: junk) =
        some (1, 2, 2026)) ∧
    parse_date_dmy "1.2.2026extra" = some ⟨2026, 2, 1⟩ ∧
    parse_date_dmy_slash "1/2/2026extra" = some ⟨2026, 2, 1⟩ := by
  refine ⟨?_, ?_, by decide, by decide⟩
  · intro s dt h
    unfold parse_date_dmy_slash at h
    split at h
    · cases h
    · rename_i hcond
      unfold parse_date_dmy
      rw [if_neg hcond]
      dsimp only
      cases hm : matchD12D12D4 sepSlash (pyStrip s.data) with
      | none =>
        rw [hm] at h
        cases h
      | some trip =>
        obtain ⟨d, m, y⟩ := trip
        rw [hm] at h
        rw [matchD12D12D4_slash_to_dot_rstrip _ _ _ _ hm]
        exact h
  · intro junk
    have h1 : parseD12 sepDotSlash
        ('1' :: '.' :: '2' :: '.' :: '2' :: '0' :: '2' :: '6' :: junk) =
        some (1, '2' :: '.' :: '2' :: '0' :: '2' :: '6' :: junk) := by
      unfold parseD12
      dsimp only
      rw [if_pos (by decide), if_neg (by decide), if_pos (by decide),
        show digitVal '1' = 1 from by decide]
    have h2 : parseD12 sepDotSlash ('2' :: '.' :: '2' :: '0' :: '2' :: '6' :: junk) =
        some (2, '2' :: '0' :: '2' :: '6' :: junk) := by
      unfold parseD12
      dsimp only
      rw [if_pos (by decide), if_neg (by decide), if_pos (by decide),
        show digitVal '2' = 2 from by decide]
    have h3 : parseD4 ('2' :: '0' :: '2' :: '6' :: junk) = some (2026, junk) := by
      unfold parseD4
      dsimp only
      rw [if_pos (by decide),
        show digitVal '2' * 1000 + digitVal '0' * 100 + digitVal '2' * 10 + digitVal '6' =
          2026 from by decide]
    unfold matchD12D12D4
    rw [h1]
    dsimp only
    rw [h2]
    dsimp only
    rw [h3]

/-- C10 witness: the subsumption applied at a concrete slash-formatted
date. -/
theorem claim_C10_witness :
    parse_date_dmy "1/2/2026" = some ⟨2026, 2, 1⟩ :=
  claim_C10.1 "1/2/2026" ⟨2026, 2, 1⟩ (by decide)

/-! ## Claim C9 (confirmed) -/

/-- C9: five bold-weight glyphs with codes 4..8 on one line, within the
horizontal-gap threshold, decode through the bold lookup table to the
single word `IZVOD`, whatever the weights of the further glyphs sharing
the line; the bold table indeed maps 4..8 to `I`,`Z`,`V`,`O`,`D`. -/
theorem claim_C9 :
    (∀ w1 w2 : Bool,
      nlbDecodePage (c9Chars w1 w2) =
        [(100, [(some 0, "IZVOD"),
                (some 40, (if w1 then "B" else "v") ++ (if w2 then "R" else "l"))])]) ∧
    List.map (cidGet boldCidMap) [4, 5, 6, 7, 8] = ["I", "Z", "V", "O", "D"] := by
  constructor
  · intro w1 w2
    cases w1 <;> cases w2 <;>
      norm_num +decide [nlbDecodePage, nlbDecoded, nlbDecodeChar, cidMatch, cidGet, boldCidMap,
        regularCidMap, pyContains, pyStartsWith, nlbYKey, pyRound, nlbSortedKeys, insertKey,
        nlbSortByX, insertByX, nlbCombine, nlbCombineStep, c9Chars, fontOf, digitsToNat, digitVal,
        List.foldl, List.filter, List.filterMap, List.foldr, List.takeWhile]
  · decide

/-! ## Ziraat structure lemmas -/

theorem ziraatCounterparty_row (cell : String) (txn : ParsedTransaction) :
    (ziraatCounterparty cell txn).row_number = txn.row_number := by
  unfold ziraatCounterparty
  dsimp only
  split <;> rfl

theorem ziraatDebitWithFee_row (cell : String) (txn : ParsedTransaction) :
    (ziraatDebitWithFee cell txn).row_number = txn.row_number := by
  unfold ziraatDebitWithFee
  dsimp only
  repeat' split
  all_goals rfl

theorem ziraatRefsCol_row (cell : String) (txn : ParsedTransaction) :
    (ziraatRefsCol cell txn).row_number = txn.row_number := by
  unfold ziraatRefsCol
  dsimp only
  repeat' split
  all_goals rfl

theorem ziraatBuildTxn_row (row : Row) (rb : Nat) :
    (ziraatBuildTxn row rb).row_number = rb := by
  unfold ziraatBuildTxn
  dsimp only
  repeat' split
  all_goals
    simp [ziraatCounterparty_row, ziraatDebitWithFee_row, ziraatRefsCol_row]

theorem ziraatUkupno_txns (st : ZiraatState) (row : Row) :
    (ziraatUkupno st row).transactions = st.transactions := by
  unfold ziraatUkupno
  generalize row.enum = l
  induction l generalizing st with
  | nil => rfl
  | cons p ps ih =>
    rw [List.foldl_cons, ih]
    dsimp only
    repeat' split
    all_goals rfl

theorem ziraatStep_txns (st : ZiraatState) (row : Row) :
    (ziraatStep st row).transactions = st.transactions ++ (ziraatRowTxn row).toList := by
  unfold ziraatStep ziraatRowTxn
  cases h0 : cellNonEmpty row 0 with
  | none => simp
  | some c0 =>
    dsimp only
    by_cases hd : pyIsdigit (pyStrip c0.data) = true
    · simp only [if_pos hd]
      split
      · simp
      · simp
    · simp only [if_neg hd]
      split
      · rw [ziraatUkupno_txns]
        simp
      · simp

theorem ziraatFold (rows : List Row) (st : ZiraatState) :
    (rows.foldl ziraatStep st).transactions =
      st.transactions ++ rows.filterMap ziraatRowTxn := by
  induction rows generalizing st with
  | nil => simp
  | cons r rs ih =>
    rw [List.foldl_cons, ih, List.filterMap_cons]
    rw [ziraatStep_txns]
    cases h : ziraatRowTxn r <;> simp

theorem ziraatTxns_eq (tables : List Table) :
    ziraatTxns tables = (tables.flatMap id).filterMap ziraatRowTxn := by
  have H : ∀ (tbs : List Table) (st : ZiraatState),
      (tbs.foldl (fun st table => table.foldl ziraatStep st) st).transactions =
      st.transactions ++ (tbs.flatMap id).filterMap ziraatRowTxn := by
    intro tbs
    induction tbs with
    | nil => intro st; simp
    | cons t ts ih =>
      intro st
      rw [List.foldl_cons, ih, ziraatFold]
      simp
  have := H tables {}
  unfold ziraatTxns ziraatRun
  simpa using this

theorem filterMap_map_sublist {α β γ : Type} (g : α → Option β) (h : α → Option γ)
    (f : β → γ) (H : ∀ x t, g x = some t → h x = some (f t)) (l : List α) :
    ((l.filterMap g).map f).Sublist (l.filterMap h) := by
  induction l with
  | nil => simp
  | cons x xs ih =>
    rw [List.filterMap_cons, List.filterMap_cons]
    cases hg : g x with
    | none =>
      cases hh : h x with
      | none => exact ih
      | some c => exact ih.cons c
    | some t =>
      rw [H x t hg]
      simp only [List.map_cons]
      exact ih.cons₂ (f t)

theorem ziraatRowTxn_label (row : Row) (t : ParsedTransaction)
    (h : ziraatRowTxn row = some t) : ziraatRowLabel row = some t.row_number := by
  unfold ziraatRowTxn at h
  unfold ziraatRowLabel
  cases h0 : cellNonEmpty row 0 with
  | none => rw [h0] at h; cases h
  | some c0 =>
    rw [h0] at h
    dsimp only at h ⊢
    by_cases hd : pyIsdigit (pyStrip c0.data) = true
    · rw [if_pos hd] at h
      rw [if_pos hd]
      split at h
      · cases h
        rw [ziraatBuildTxn_row]
      · cases h
    · rw [if_neg hd] at h
      cases h

theorem ziraatRbLabels_eq (tables : List Table) :
    ziraatRbLabels tables = (tables.flatMap id).filterMap ziraatRowLabel := rfl

/-! ## Amount-capture and Zapad daily loop lemmas -/

theorem pAmountGroup_parses (l cap r : List Char)
    (h : pAmountGroup l = some (cap, r)) : parse_amount_us ⟨cap⟩ ≠ none := by
  unfold pAmountGroup at h
  dsimp only at h
  split at h
  · cases h
  · rename_i hrun
    split at h
    · rename_i a b rest heq
      split at h
      · rename_i hab
        injection h with h1
        injection h1 with hcap hr
        subst hcap
        simp only [Bool.and_eq_true] at hab
        have hmem : ∀ c ∈ l.takeWhile (fun c => c.isDigit || c == ','),
            (c.isDigit || c == ',') = true := by
          intro c hc
          have h2 := List.mem_takeWhile_imp hc
          exact h2
        set run := l.takeWhile (fun c => c.isDigit || c == ',') with hrundef
        have hnw : ∀ c ∈ run ++ '.' :: [a, b], pyIsWs c = false := by
          intro c hc
          rcases List.mem_append.mp hc with h1 | h2
          · have hor := hmem c h1
            rw [Bool.or_eq_true] at hor
            rcases hor with hd | hcm
            · exact (digit_facts c hd).2.1
            · have : c = ',' := by simpa using hcm
              subst this
              decide
          · rcases List.mem_cons.mp h2 with rfl | h3
            · decide
            · rcases List.mem_cons.mp h3 with rfl | h4
              · exact (digit_facts _ hab.1).2.1
              · rcases List.mem_cons.mp h4 with rfl | h5
                · exact (digit_facts _ hab.2).2.1
                · cases h5
        have hstrip : pyStrip (run ++ '.' :: [a, b]) = run ++ '.' :: [a, b] :=
          pyStrip_eq_self _ hnw
        have hsp : pyDropChar ' ' (run ++ '.' :: [a, b]) = run ++ '.' :: [a, b] := by
          unfold pyDropChar
          rw [List.filter_eq_self]
          intro c hc
          have hcw := hnw c hc
          simp only [decide_eq_true_eq]
          intro hcsp
          subst hcsp
          exact absurd hcw (by decide)
        intro hnone
        unfold parse_amount_us at hnone
        rw [if_neg (by
          show ¬((run ++ '.' :: [a, b]).isEmpty ∨ (pyStrip (run ++ '.' :: [a, b])).isEmpty)
          rw [hstrip]
          simp)] at hnone
        dsimp only at hnone
        rw [hstrip, hsp] at hnone
        rw [if_neg (by
          intro hx
          rcases hx with hx | hx
          · simp at hx
          · have hdotmem : ('.' : Char) ∈ run ++ '.' :: [a, b] := by simp
            rw [hx] at hdotmem
            simp at hdotmem)] at hnone
        have hcomma : pyDropChar ',' (run ++ '.' :: [a, b]) =
            (pyDropChar ',' run) ++ '.' :: [a, b] := by
          unfold pyDropChar
          rw [List.filter_append]
          congr 1
          rw [List.filter_eq_self]
          intro c hc
          rcases List.mem_cons.mp hc with rfl | h3
          · decide
          · rcases List.mem_cons.mp h3 with rfl | h4
            · simpa using (digit_facts _ hab.1).2.2.2.1
            · rcases List.mem_cons.mp h4 with rfl | h5
              · simpa using (digit_facts _ hab.2).2.2.2.1
              · cases h5
        rw [hcomma] at hnone
        rw [pyDecimal_int_frac _ _
          (fun c hc => by
            have hin := List.mem_filter.mp hc
            have hor := hmem c hin.1
            rw [Bool.or_eq_true] at hor
            rcases hor with hd | hcm
            · exact hd
            · exfalso
              have : c = ',' := by simpa using hcm
              subst this
              simp at hin)
          (fun c hc => by
            rcases List.mem_cons.mp hc with rfl | h3
            · exact hab.1
            · rcases List.mem_cons.mp h3 with rfl | h4
              · exact hab.2
              · cases h4)
          (by simp)] at hnone
        cases hnone
      · cases h
    · cases h

theorem findSome?_some {α β : Type} (f : α → Option β) (l : List α) (b : β)
    (h : l.findSome? f = some b) : ∃ a ∈ l, f a = some b := by
  induction l with
  | nil => cases h
  | cons x xs ih =>
    rw [List.findSome?_cons] at h
    cases hf : f x with
    | some c =>
      rw [hf] at h
      injection h with h1
      exact ⟨x, List.mem_cons_self x xs, by rw [hf, h1]⟩
    | none =>
      rw [hf] at h
      obtain ⟨a, ha, hfa⟩ := ih h
      exact ⟨a, List.mem_cons_of_mem x ha, hfa⟩

theorem zapadTwoAmounts_amt {α : Type} (endk : List Char → Option α)
    (l a1 a2 : List Char) (x : α) (h : zapadTwoAmounts endk l = some (a1, a2, x)) :
    parse_amount_us ⟨a1⟩ ≠ none ∧ parse_amount_us ⟨a2⟩ ≠ none := by
  unfold zapadTwoAmounts at h
  cases h1 : pWsPlus l with
  | none => rw [h1] at h; cases h
  | some r3 =>
    rw [h1] at h
    dsimp only at h
    cases h2 : pAmountGroup r3 with
    | none => rw [h2] at h; cases h
    | some p =>
      obtain ⟨b1, r4⟩ := p
      rw [h2] at h
      dsimp only at h
      cases h3 : pWsPlus r4 with
      | none => rw [h3] at h; cases h
      | some r5 =>
        rw [h3] at h
        dsimp only at h
        cases h4 : pAmountGroup r5 with
        | none => rw [h4] at h; cases h
        | some q =>
          obtain ⟨b2, r6⟩ := q
          rw [h4] at h
          dsimp only at h
          rcases Option.map_eq_some'.mp h with ⟨y, hy, heq⟩
          simp only [Prod.mk.injEq] at heq
          obtain ⟨e1, e2, e3⟩ := heq
          subst e1
          subst e2
          exact ⟨pAmountGroup_parses _ _ _ h2, pAmountGroup_parses _ _ _ h4⟩

theorem zapadTail_amt {α : Type} (endk : List Char → Option α)
    (l acct a1 a2 : List Char) (x : α)
    (h : zapadTail endk l = some (acct, a1, a2, x)) :
    parse_amount_us ⟨a1⟩ ≠ none ∧ parse_amount_us ⟨a2⟩ ≠ none := by
  unfold zapadTail at h
  cases h1 : pWsPlus l with
  | none => rw [h1] at h; cases h
  | some r1 =>
    rw [h1] at h
    dsimp only at h
    obtain ⟨ar, hmem, har⟩ := findSome?_some _ _ _ h
    rcases Option.map_eq_some'.mp har with ⟨t, ht, heq⟩
    obtain ⟨b1, b2, y⟩ := t
    simp only [Prod.mk.injEq] at heq
    obtain ⟨e0, e1, e2, e3⟩ := heq
    subst e1
    subst e2
    exact zapadTwoAmounts_amt _ _ _ _ _ ht

theorem zapadMidLoop_amt {α : Type} (endk : List Char → Option α)
    (rest accRev mid acct a1 a2 : List Char) (x : α)
    (h : zapadMidLoop endk accRev rest = some (mid, acct, a1, a2, x)) :
    parse_amount_us ⟨a1⟩ ≠ none ∧ parse_amount_us ⟨a2⟩ ≠ none := by
  induction rest generalizing accRev with
  | nil =>
    unfold zapadMidLoop at h
    split at h
    · rename_i t heqt
      obtain ⟨b1, b2, b3, y⟩ := t
      split at heqt
      · cases heqt
      · injection h with h1
        simp only [Prod.mk.injEq] at h1
        obtain ⟨e0, e1, e2, e3, e4⟩ := h1
        subst e2
        subst e3
        exact zapadTail_amt _ _ _ _ _ _ heqt
    · cases h
  | cons c rs ih =>
    unfold zapadMidLoop at h
    split at h
    · rename_i t heqt
      obtain ⟨b1, b2, b3, y⟩ := t
      split at heqt
      · cases heqt
      · injection h with h1
        simp only [Prod.mk.injEq] at h1
        obtain ⟨e0, e1, e2, e3, e4⟩ := h1
        subst e2
        subst e3
        exact zapadTail_amt _ _ _ _ _ _ heqt
    · split at h
      · cases h
      · exact ih _ h

theorem zapadWsMidGo_amt {α : Type} (endk : List Char → Option α)
    (l : List Char) (k : Nat) (mid acct a1 a2 : List Char) (x : α)
    (h : zapadWsMidGo endk l k = some (mid, acct, a1, a2, x)) :
    parse_amount_us ⟨a1⟩ ≠ none ∧ parse_amount_us ⟨a2⟩ ≠ none := by
  induction k with
  | zero => cases h
  | succ k ih =>
    unfold zapadWsMidGo at h
    split at h
    · rename_i r heqr
      injection h with h1
      subst h1
      exact zapadMidLoop_amt _ _ _ _ _ _ _ _ heqr
    · exact ih h

theorem zapadWsMid_amt {α : Type} (endk : List Char → Option α)
    (l : List Char) (mid acct a1 a2 : List Char) (x : α)
    (h : zapadWsMid endk l = some (mid, acct, a1, a2, x)) :
    parse_amount_us ⟨a1⟩ ≠ none ∧ parse_amount_us ⟨a2⟩ ≠ none := by
  unfold zapadWsMid at h
  dsimp only at h
  split at h
  · cases h
  · exact zapadWsMidGo_amt _ _ _ _ _ _ _ _ h

theorem zapadMatchTwo_amt (l : List Char) (g : ZapadGroups)
    (h : zapadMatchTwo l = some g) :
    parse_amount_us ⟨g.g5⟩ ≠ none ∧ parse_amount_us ⟨g.g6⟩ ≠ none := by
  unfold zapadMatchTwo at h
  rcases Option.bind_eq_some.mp h with ⟨p, hp, hmap⟩
  rcases Option.map_eq_some'.mp hmap with ⟨r5, hr, hg⟩
  obtain ⟨mid, acct, a1, a2, u⟩ := r5
  subst hg
  exact zapadWsMid_amt _ _ _ _ _ _ _ hr

theorem zapadMatchThree_amt (l : List Char) (g : ZapadGroups)
    (h : zapadMatchThree l = some g) :
    parse_amount_us ⟨g.g5⟩ ≠ none ∧ parse_amount_us ⟨g.g6⟩ ≠ none := by
  unfold zapadMatchThree at h
  rcases Option.bind_eq_some.mp h with ⟨p, hp, hmap⟩
  rcases Option.map_eq_some'.mp hmap with ⟨r5, hr, hg⟩
  obtain ⟨mid, acct, a1, a2, u⟩ := r5
  subst hg
  exact zapadWsMid_amt _ _ _ _ _ _ _ hr

theorem zapadLoopGo_presence (stmtDate : Option PyDate) (fuel : Nat)
    (lines : List String) (t : ParsedTransaction)
    (ht : t ∈ zapadLoopGo stmtDate fuel lines) :
    t.debit ≠ none ∨ t.credit ≠ none := by
  induction fuel generalizing lines with
  | zero => simp [zapadLoopGo] at ht
  | succ fuel ih =>
    cases lines with
    | nil => simp [zapadLoopGo] at ht
    | cons line rest =>
      unfold zapadLoopGo at ht
      dsimp only at ht
      cases hm2 : zapadMatchTwo (pyStrip line.data) with
      | some g =>
        rw [hm2] at ht
        dsimp only at ht
        rcases List.mem_cons.mp ht with rfl | hrest
        · right
          unfold zapadTxnTwo
          simp
        · exact ih _ hrest
      | none =>
        rw [hm2] at ht
        dsimp only at ht
        cases hm3 : zapadMatchThree (pyStrip line.data) with
        | some g =>
          rw [hm3] at ht
          dsimp only at ht
          rcases List.mem_cons.mp ht with rfl | hrest
          · left
            unfold zapadTxnThree
            dsimp only
            exact (zapadMatchThree_amt _ _ hm3).1
          · exact ih _ hrest
        | none =>
          rw [hm3] at ht
          exact ih _ ht

theorem zapadPost_mem (stmt : ParsedStatement) (t : ParsedTransaction)
    (ht : t ∈ (zapadPost stmt).transactions) :
    t ∈ stmt.transactions ∨ ∃ u ∈ stmt.transactions, t = zapadSwapTxn u := by
  unfold zapadPost at ht
  dsimp only at ht
  split at ht
  · exact Or.inl ht
  · split at ht
    · dsimp only at ht
      rcases List.mem_map.mp ht with ⟨u, hu, rfl⟩
      exact Or.inr ⟨u, hu, rfl⟩
    · exact Or.inl ht

theorem zapad_presence (text : String) (t : ParsedTransaction)
    (ht : t ∈ (zapadDaily text).transactions) : t.debit ≠ none ∨ t.credit ≠ none := by
  unfold zapadDaily at ht
  dsimp only at ht
  rcases zapadPost_mem _ _ ht with hmem | ⟨u, hu, rfl⟩
  · exact zapadLoopGo_presence _ _ _ _ hmem
  · left
    unfold zapadSwapTxn
    simp

theorem ziraat_presence (tables : List Table) (t : ParsedTransaction)
    (ht : t ∈ ziraatTxns tables) : t.debit ≠ none ∨ t.credit ≠ none := by
  rw [ziraatTxns_eq] at ht
  rcases List.mem_filterMap.mp ht with ⟨row, hrow, hsome⟩
  unfold ziraatRowTxn at hsome
  cases h0 : cellNonEmpty row 0 with
  | none => rw [h0] at hsome; cases hsome
  | some c0 =>
    rw [h0] at hsome
    dsimp only at hsome
    split at hsome
    · split at hsome
      · rename_i hcond
        injection hsome with h1
        subst h1
        exact hcond
      · cases hsome
    · cases hsome

/-- C1 as amended: every transaction retained by the Ziraat pass or the
Zapad daily pass has at least one of debit/credit present (non-`None`);
strict positivity is not guaranteed (see the counterexample). -/
theorem claim_C1 :
    (∀ (tables : List Table) (t : ParsedTransaction),
      t ∈ ziraatTxns tables → t.debit ≠ none ∨ t.credit ≠ none) ∧
    (∀ (text : String) (t : ParsedTransaction),
      t ∈ (zapadDaily text).transactions → t.debit ≠ none ∨ t.credit ≠ none) :=
  ⟨ziraat_presence, zapad_presence⟩

/-- C1 counterexample: a retained Ziraat row whose debit cell reads
`0.00` yields a transaction whose debit is present but zero and whose
credit is absent — no field is both present and strictly positive. -/
theorem claim_C1_counterexample :
    (ziraatTxns c1BadTables).map (fun t => t.debit) = [some (.num 0 (-2))] ∧
    (ziraatTxns c1BadTables).map (fun t => t.credit) = [none] ∧
    pyDecGtZero (.num 0 (-2)) = false := by
  decide

/-- C1 witness: the presence claim applied to the transaction of the
counterexample document. -/
theorem claim_C1_witness :
    ({ row_number := 1, debit := some (.num 0 (-2)) } : ParsedTransaction).debit ≠ none ∨
    ({ row_number := 1, debit := some (.num 0 (-2)) } : ParsedTransaction).credit ≠ none :=
  claim_C1.1 c1BadTables _ (by decide)

/-! ## Claim C2 (corrected) -/

/-- C2 counterexample: a document whose digit labels run 2, 1, 1 produces
transactions whose row numbers are exactly 2, 1, 1 — neither strictly
increasing nor pairwise distinct. -/
theorem claim_C2_counterexample :
    (ziraatTxns c2BadTables).map (fun t => t.row_number) = [2, 1, 1] ∧
    ¬ List.Pairwise (· < ·) ((ziraatTxns c2BadTables).map (fun t => t.row_number)) ∧
    ¬ ((ziraatTxns c2BadTables).map (fun t => t.row_number)).Nodup := by
  decide

/-- C2 as amended: row numbers are copied from the document's own RB
labels, so the retained transactions' row numbers form a subsequence of
the digit labels in document order; they are strictly increasing (hence
pairwise distinct) whenever the document's labels are, but nothing
enforces this for arbitrary documents. -/
theorem claim_C2 :
    (∀ tables : List Table,
      ((ziraatTxns tables).map (fun t => t.row_number)).Sublist (ziraatRbLabels tables)) ∧
    (∀ tables : List Table,
      List.Pairwise (· < ·) (ziraatRbLabels tables) →
      List.Pairwise (· < ·) ((ziraatTxns tables).map (fun t => t.row_number))) ∧
    (∀ tables : List Table,
      List.Pairwise (· < ·) (ziraatRbLabels tables) →
      ((ziraatTxns tables).map (fun t => t.row_number)).Nodup) := by
  have h1 : ∀ tables : List Table,
      ((ziraatTxns tables).map (fun t => t.row_number)).Sublist (ziraatRbLabels tables) := by
    intro tables
    rw [ziraatTxns_eq, ziraatRbLabels_eq]
    exact filterMap_map_sublist _ _ _ ziraatRowTxn_label _
  refine ⟨h1, fun tables hp => hp.sublist (h1 tables), fun tables hp => ?_⟩
  exact List.Pairwise.imp Nat.ne_of_lt (hp.sublist (h1 tables))

/-- C2 witness: on a document with increasing labels the row numbers come
out strictly increasing. -/
theorem claim_C2_witness :
    List.Pairwise (· < ·) ((ziraatTxns c2GoodTables).map (fun t => t.row_number)) :=
  claim_C2.2.1 c2GoodTables (by decide)

/-! ## Claim C7 (corrected) -/

theorem pyDecIsZero_not_gt (d : PyDec) (h : pyDecIsZero d = true) :
    pyDecGtZero d = false := by
  cases d <;> simp_all [pyDecIsZero, pyDecGtZero]

theorem pyDecGtZero_not_zero (d : PyDec) (h : pyDecGtZero d = true) :
    pyDecIsZero d = false := by
  cases d <;> simp_all [pyDecIsZero, pyDecGtZero]
  omega

/-- C7 counterexample: a daily document whose debit total is zero but whose
credit total is also zero is NOT reclassified — the row's amount stays in
the debit field and its credit stays zero, although the claim requires
every row to become a credit whenever the debit total is zero. -/
theorem claim_C7_counterexample :
    (zapadDaily c7TextBoth).total_debit = some (.num 0 (-2)) ∧
    pyDecIsZero (.num 0 (-2)) = true ∧
    (zapadDaily c7TextBoth).transactions.map (fun t => t.debit) = [some (.num 5880 (-2))] ∧
    (zapadDaily c7TextBoth).transactions.map (fun t => t.credit) = [some (.num 0 0)] := by
  decide

/-- C7 as amended: reclassification to credit happens only when the debit
total is zero AND the credit total is present, truthy and strictly
positive (then each row's debit moves to credit and debit becomes zero);
when the credit total is zero the post-processing changes nothing (rows
already carry the amount as debit); the daily pipeline is extraction
followed by exactly this post-processing; and on a concrete document with
a zero debit total and positive credit total the single row's amount is
indeed swapped into credit. -/
theorem claim_C7 :
    (∀ (stmt : ParsedStatement) (d c : PyDec),
      stmt.total_debit = some d → pyDecIsZero d = true →
      stmt.total_credit = some c → pyDecTruthy c = true → pyDecGtZero c = true →
      zapadPost stmt = { stmt with transactions := stmt.transactions.map zapadSwapTxn }) ∧
    (∀ (stmt : ParsedStatement) (c : PyDec),
      stmt.total_credit = some c → pyDecIsZero c = true →
      zapadPost stmt = stmt) ∧
    (∀ t : ParsedTransaction,
      (zapadSwapTxn t).credit = t.debit ∧ (zapadSwapTxn t).debit = some (.num 0 0)) ∧
    (zapadDaily c7TextSwap).transactions.map (fun t => t.credit) = [some (.num 5880 (-2))] ∧
    (zapadDaily c7TextSwap).transactions.map (fun t => t.debit) = [some (.num 0 0)] := by
  refine ⟨?_, ?_, fun t => ⟨rfl, rfl⟩, by decide, by decide⟩
  · intro stmt d c hd hdz hc hct hcg
    unfold zapadPost
    dsimp only
    rw [hd, hc]
    have h1 : pyDecIsZero c = false := pyDecGtZero_not_zero c hcg
    have h2 : pyDecGtZero d = false := pyDecIsZero_not_gt d hdz
    simp [hdz, h1, h2, hct, hcg]
  · intro stmt c hc hcz
    unfold zapadPost
    dsimp only
    rw [hc]
    have h1 : pyDecGtZero c = false := pyDecIsZero_not_gt c hcz
    cases hd : stmt.total_debit with
    | none => simp [hcz, h1]
    | some d => simp [hcz, h1]

/-- C7 witness: the amended conditional applied at a concrete statement
with a zero debit total and a positive credit total. -/
theorem claim_C7_witness :
    zapadPost
      { total_debit := some (.num 0 (-2)), total_credit := some (.num 5880 (-2)),
        transactions := [{ row_number := 1, debit := some (.num 5880 (-2)),
                           credit := some (.num 0 0) }] } =
      { total_debit := some (.num 0 (-2)), total_credit := some (.num 5880 (-2)),
        transactions := [zapadSwapTxn { row_number := 1, debit := some (.num 5880 (-2)),
                                        credit := some (.num 0 0) }] } :=
  claim_C7.1 _ _ _ rfl (by decide) rfl (by decide) (by decide)

/-! ## Claim C8 (corrected) -/

/-- C8 counterexample: on the Scenario A row the grid adapter does not
produce debit 150.00 (the debit cell goes through the International
normalizer, which strips the comma of `150,00` and reads 15000), does not
produce counterparty `GLOBEX DOO` (the account line joins the name), and
leaves the account unset (`530-12345-67` has no 15-18 digit run). -/
theorem claim_C8_counterexample :
    (ucbTxns [[c8Row]]).map (fun t => t.debit) ≠ [some (.num 15000 (-2))] ∧
    (ucbTxns [[c8Row]]).map (fun t => t.counterparty) ≠ [some "GLOBEX DOO"] ∧
    (ucbTxns [[c8Row]]).map (fun t => t.counterparty_account) ≠ [some "530-12345-67"] := by
  decide

/-- C8 as amended: the Scenario A row yields exactly one transaction with
row_number 1, debit 15000 (the comma-decimal amount read by the
US-grammar normalizer after comma removal), credit absent, counterparty
`GLOBEX DOO, 530-12345-67`, no counterparty account, payment code `132`,
purpose `invoice payment`, and booking/value date 2026-02-02. -/
theorem claim_C8 :
    ucbTxns [[c8Row]] =
      [{ row_number := 1,
         value_date := some ⟨2026, 2, 2⟩,
         booking_date := some ⟨2026, 2, 2⟩,
         debit := some (.num 15000 0),
         credit := none,
         counterparty := some "GLOBEX DOO, 530-12345-67",
         counterparty_account := none,
         payment_code := some "132",
         purpose := some "invoice payment" }] := by
  decide

end BankParser
